import Mathlib

/-!
Verification development for the simulation kernel of the rustoguelike
repository (src/world.rs and the rendering snapshot of src/game.rs).

The entity/component store (entity_table), the spatial occupancy table
(spatial_table) and the terrain generator are external collaborators of the
code under verification; they are modelled here from the specification's
description of their interface (each such definition carries a
`Modelled from the spec:` doc comment).  Everything else is translated
directly from the Rust source.
-/

set_option linter.unusedVariables false

namespace Rustoguelike

/-- Association-list lookup keyed on the first component (first match wins). -/
def lookupA {κ α : Type} [DecidableEq κ] (k : κ) : List (κ × α) → Option α
  | [] => none
  | p :: rest => if p.1 = k then some p.2 else lookupA k rest

/-- Remove every binding for a key. -/
def eraseA {κ α : Type} [DecidableEq κ] (k : κ) : List (κ × α) → List (κ × α)
  | [] => []
  | p :: rest => if p.1 = k then eraseA k rest else p :: eraseA k rest

/-- Insert with overwrite semantics. -/
def insertA {κ α : Type} [DecidableEq κ] (k : κ) (v : α) (l : List (κ × α)) :
    List (κ × α) :=
  (k, v) :: eraseA k l

theorem lookupA_eraseA_self {κ α : Type} [DecidableEq κ] (k : κ) (l : List (κ × α)) :
    lookupA k (eraseA k l) = none := by
  induction l with
  | nil => rfl
  | cons p rest ih =>
    by_cases h : p.1 = k
    · simpa [eraseA, h] using ih
    · simp [eraseA, h, lookupA, ih]

theorem lookupA_eraseA_ne {κ α : Type} [DecidableEq κ] {k k' : κ} (h : k' ≠ k)
    (l : List (κ × α)) : lookupA k' (eraseA k l) = lookupA k' l := by
  induction l with
  | nil => rfl
  | cons p rest ih =>
    simp only [eraseA, lookupA]
    by_cases h1 : p.1 = k
    · rw [if_pos h1, ih, if_neg (by rw [h1]; exact fun hh => h hh.symm)]
    · rw [if_neg h1]
      by_cases h2 : p.1 = k'
      · simp only [lookupA, if_pos h2]
      · simp only [lookupA, if_neg h2, ih]

theorem lookupA_insertA_self {κ α : Type} [DecidableEq κ] (k : κ) (v : α)
    (l : List (κ × α)) : lookupA k (insertA k v l) = some v := by
  simp [insertA, lookupA]

theorem lookupA_insertA_ne {κ α : Type} [DecidableEq κ] {k k' : κ} (h : k' ≠ k)
    (v : α) (l : List (κ × α)) : lookupA k' (insertA k v l) = lookupA k' l := by
  have hne : k ≠ k' := fun hh => h hh.symm
  simp [insertA, lookupA, hne, lookupA_eraseA_ne h]

theorem lookupA_mem {κ α : Type} [DecidableEq κ] {k : κ} {v : α} :
    ∀ {l : List (κ × α)}, lookupA k l = some v → (k, v) ∈ l := by
  intro l
  induction l with
  | nil => intro h; simp [lookupA] at h
  | cons p rest ih =>
    obtain ⟨a, b⟩ := p
    intro h
    by_cases hp : a = k
    · simp only [lookupA, if_pos hp] at h
      subst hp
      cases h
      exact List.mem_cons_self _ _
    · simp only [lookupA, if_neg hp] at h
      exact List.mem_cons_of_mem _ (ih h)

theorem lookupA_of_mem_nodup {κ α : Type} [DecidableEq κ] {k : κ} {v : α} :
    ∀ {l : List (κ × α)}, (k, v) ∈ l → (l.map Prod.fst).Nodup → lookupA k l = some v := by
  intro l
  induction l with
  | nil => intro h; simp at h
  | cons p rest ih =>
    obtain ⟨a, b⟩ := p
    intro hmem hnd
    rcases List.mem_cons.mp hmem with h | h
    · cases h
      simp [lookupA]
    · have hk : a ≠ k := by
        intro hk
        subst hk
        have : a ∈ rest.map Prod.fst := List.mem_map.mpr ⟨(a, v), h, rfl⟩
        exact (List.nodup_cons.mp (by simpa using hnd)).1 this
      simp only [lookupA, if_neg hk]
      exact ih h (List.nodup_cons.mp (by simpa using hnd)).2

/-- A 2D grid coordinate (coord_2d `Coord`, i32 fields modelled as Int). -/
structure Coord where
  x : Int
  y : Int
deriving DecidableEq, Repr

/-- A grid size (coord_2d `Size`, u32 fields modelled as Nat). -/
structure Size where
  width : Nat
  height : Nat
deriving DecidableEq, Repr

/-- coord_2d `Coord::is_valid`: the coordinate lies inside the grid. -/
def Coord.isValid (c : Coord) (s : Size) : Bool :=
  decide (0 ≤ c.x ∧ c.x < (s.width : Int) ∧ 0 ≤ c.y ∧ c.y < (s.height : Int))

/-- Componentwise coordinate addition. -/
def Coord.add (a b : Coord) : Coord :=
  ⟨a.x + b.x, a.y + b.y⟩

/-- The direction crate's `CardinalDirection`. -/
inductive CardinalDirection
  | north
  | east
  | south
  | west
deriving DecidableEq, Repr

/-- `CardinalDirection::coord`: the unit offset of a direction (screen coordinates,
north is negative y). -/
def CardinalDirection.coord : CardinalDirection → Coord
  | .north => ⟨0, -1⟩
  | .east => ⟨1, 0⟩
  | .south => ⟨0, 1⟩
  | .west => ⟨-1, 0⟩

/-- Modelled from the spec: an entity is an opaque reusable identifier,
an index plus a generation/version tag (entity_table `Entity`). -/
structure Entity where
  index : Nat
  generation : Nat
deriving DecidableEq, Repr

/-- world.rs `HitPoints` (u32 fields modelled as Nat). -/
structure HitPoints where
  current : Nat
  max : Nat
deriving DecidableEq, Repr

/-- world.rs `HitPoints::new_full`. -/
def HitPoints.new_full (m : Nat) : HitPoints := ⟨m, m⟩

/-- world.rs `NpcType`. -/
inductive NpcType
  | orc
  | troll
deriving DecidableEq, Repr

/-- world.rs `Tile`. -/
inductive Tile
  | floor
  | npc (t : NpcType)
  | npcCorpse (t : NpcType)
  | player
  | playerCorpse
  | wall
deriving DecidableEq, Repr

/-- world.rs layers declaration: the four occupancy layers. -/
inductive Layer
  | character
  | corpse
  | feature
  | floor
deriving DecidableEq, Repr

/-- spatial_table `Location`: a coordinate and an optional layer. -/
structure Location where
  coord : Coord
  layer : Option Layer
deriving DecidableEq, Repr

/-- Modelled from the spec: the entity allocator (entity_table `EntityAllocator`):
fresh identifiers in amortized O(1), freed indices reusable with a bumped
generation so stale handles fail lookups. -/
structure EntityAllocator where
  next : Nat
  gens : List (Nat × Nat)
  freeList : List Nat
deriving DecidableEq, Repr

def EntityAllocator.default : EntityAllocator := ⟨0, [], []⟩

/-- Current generation for an index (0 if never freed). -/
def EntityAllocator.genOf (a : EntityAllocator) (i : Nat) : Nat :=
  (lookupA i a.gens).getD 0

/-- Modelled from the spec: `alloc` returns a fresh identifier, reusing a freed
index (with its current generation) when one is available. -/
def EntityAllocator.alloc (a : EntityAllocator) : Entity × EntityAllocator :=
  match a.freeList with
  | [] => (⟨a.next, a.genOf a.next⟩, { a with next := a.next + 1 })
  | i :: rest => (⟨i, a.genOf i⟩, { a with freeList := rest })

/-- Modelled from the spec: `free` invalidates the identifier (generation bump)
and makes its index reusable. -/
def EntityAllocator.free (a : EntityAllocator) (e : Entity) : EntityAllocator :=
  { a with
    freeList := e.index :: a.freeList,
    gens := insertA e.index (a.genOf e.index + 1) a.gens }

/-- world.rs components declaration: one sparse table per attribute kind. -/
structure Components where
  hit_points : List (Entity × HitPoints)
  npc_type : List (Entity × NpcType)
  tile : List (Entity × Tile)
deriving DecidableEq, Repr

def Components.default : Components := ⟨[], [], []⟩

/-- entity_table `Components::remove_entity`: purge an entity from every table. -/
def Components.remove_entity (c : Components) (e : Entity) : Components :=
  ⟨eraseA e c.hit_points, eraseA e c.npc_type, eraseA e c.tile⟩

/-- spatial_table `UpdateError`. -/
inductive UpdateError
  | occupiedBy (e : Entity)
  | destinationOutOfBounds
  | noLocation
deriving DecidableEq, Repr

/-- Modelled from the spec: the spatial occupancy table maps coordinates to
layered occupants (`cells`) and entities to their current location (`locs`),
bidirectionally. -/
structure SpatialTable where
  gridSize : Size
  cells : List ((Coord × Layer) × Entity)
  locs : List (Entity × Location)
deriving DecidableEq, Repr

def SpatialTable.new (s : Size) : SpatialTable := ⟨s, [], []⟩

def SpatialTable.grid_size (t : SpatialTable) : Size := t.gridSize

/-- spatial_table `location_of`. -/
def SpatialTable.location_of (t : SpatialTable) (e : Entity) : Option Location :=
  lookupA e t.locs

/-- spatial_table `coord_of`. -/
def SpatialTable.coord_of (t : SpatialTable) (e : Entity) : Option Coord :=
  (lookupA e t.locs).map Location.coord

/-- spatial_table `layer_of`. -/
def SpatialTable.layer_of (t : SpatialTable) (e : Entity) : Option Layer :=
  (lookupA e t.locs).bind Location.layer

/-- The per-layer occupants of one cell (spatial_table `Layers`). -/
structure Layers where
  character : Option Entity
  corpse : Option Entity
  feature : Option Entity
  floor : Option Entity
deriving DecidableEq, Repr

def Layers.empty : Layers := ⟨none, none, none, none⟩

/-- The occupants recorded for a coordinate. -/
def SpatialTable.layersOf (t : SpatialTable) (c : Coord) : Layers :=
  ⟨lookupA (c, Layer.character) t.cells,
   lookupA (c, Layer.corpse) t.cells,
   lookupA (c, Layer.feature) t.cells,
   lookupA (c, Layer.floor) t.cells⟩

/-- Modelled from the spec: `layers_at` returns the occupants of each layer at a
coordinate, absent for out-of-range coordinates. -/
def SpatialTable.layers_at (t : SpatialTable) (c : Coord) : Option Layers :=
  if c.isValid t.gridSize then some (t.layersOf c) else none

/-- Modelled from the spec: the checked variant treats out-of-range coordinates
as "no occupants" rather than failing. -/
def SpatialTable.layers_at_checked (t : SpatialTable) (c : Coord) : Layers :=
  (t.layers_at c).getD Layers.empty

/-- The cell entries with the entity's currently claimed slot (if any) vacated. -/
def SpatialTable.clearSlotOf (t : SpatialTable) (e : Entity) :
    List ((Coord × Layer) × Entity) :=
  match lookupA e t.locs with
  | some ⟨c, some l⟩ => eraseA (c, l) t.cells
  | _ => t.cells

/-- Modelled from the spec: `update` claims the layer slot at `location.coord`;
it fails with `occupiedBy` if that slot is taken by a different entity; on
success any previously claimed slot is vacated atomically. -/
def SpatialTable.update (t : SpatialTable) (e : Entity) (loc : Location) :
    Except UpdateError SpatialTable :=
  if loc.coord.isValid t.gridSize = false then Except.error UpdateError.destinationOutOfBounds
  else
    match loc.layer with
    | some l =>
      match lookupA (loc.coord, l) t.cells with
      | some occupant =>
        if occupant = e then
          Except.ok
            { t with
              cells := insertA (loc.coord, l) e (t.clearSlotOf e),
              locs := insertA e loc t.locs }
        else Except.error (UpdateError.occupiedBy occupant)
      | none =>
        Except.ok
          { t with
            cells := insertA (loc.coord, l) e (t.clearSlotOf e),
            locs := insertA e loc t.locs }
    | none =>
      Except.ok { t with cells := t.clearSlotOf e, locs := insertA e loc t.locs }

/-- Modelled from the spec: `update_coord` moves the entity within its existing
layer, with the same occupancy check. -/
def SpatialTable.update_coord (t : SpatialTable) (e : Entity) (c : Coord) :
    Except UpdateError SpatialTable :=
  match lookupA e t.locs with
  | some loc => t.update e { loc with coord := c }
  | none => Except.error UpdateError.noLocation

/-- Modelled from the spec: `update_layer` moves the entity to a different layer
at its current coordinate, with the same occupancy check. -/
def SpatialTable.update_layer (t : SpatialTable) (e : Entity) (l : Layer) :
    Except UpdateError SpatialTable :=
  match lookupA e t.locs with
  | some loc => t.update e { loc with layer := some l }
  | none => Except.error UpdateError.noLocation

/-- Modelled from the spec: `remove` vacates the entity's slot and drops its
location. -/
def SpatialTable.remove (t : SpatialTable) (e : Entity) : SpatialTable :=
  { t with cells := t.clearSlotOf e, locs := eraseA e t.locs }

/-- Modelled from the spec: per-NPC AI scratch state (behaviour `Agent`);
its contents are irrelevant to the world operations verified here. -/
structure Agent where
deriving DecidableEq, Repr

def Agent.new : Agent := {}

/-- Modelled from the spec: the terrain generator's tile kinds
(`TerrainTileKind` ∈ Floor, Wall, Npc(kind), Player). -/
inductive TerrainTile
  | floor
  | npc (k : NpcType)
  | player
  | wall
deriving DecidableEq, Repr

/-- world.rs `World`. -/
structure World where
  entity_allocator : EntityAllocator
  components : Components
  spatial_table : SpatialTable
deriving DecidableEq, Repr

/-- world.rs `World::new`. -/
def World.new (s : Size) : World :=
  ⟨EntityAllocator.default, Components.default, SpatialTable.new s⟩

/-- world.rs `World::remove_entity`: purge the entity from every component
table, the spatial table and the allocator. -/
def World.remove_entity (w : World) (e : Entity) : World :=
  { w with
    components := w.components.remove_entity e,
    spatial_table := w.spatial_table.remove e,
    entity_allocator := w.entity_allocator.free e }

/-- Overwrite an entity's hit points (the write-back of `get_mut`). -/
def World.setHp (w : World) (v : Entity) (hp : HitPoints) : World :=
  { w with
    components :=
      { w.components with hit_points := insertA v hp w.components.hit_points } }

/-- The first phase of world.rs `World::character_die`: move the entity to the
Corpse layer at its own coordinate, evicting a pre-existing corpse if the slot
is occupied.  `none` models a panic (`unwrap_occupied_by` on a different error,
or the failing second `unwrap`). -/
def World.corpseRelocate (w : World) (e : Entity) : Option World :=
  match w.spatial_table.update_layer e Layer.corpse with
  | Except.ok t => some { w with spatial_table := t }
  | Except.error (UpdateError.occupiedBy o) =>
    match (w.remove_entity o).spatial_table.update_layer e Layer.corpse with
    | Except.ok t => some { w.remove_entity o with spatial_table := t }
    | Except.error _ => none
  | Except.error _ => none

/-- world.rs `World::character_die`.  `none` models a panic (a failed `unwrap`
or the `panic!` on an unexpected tile). -/
def World.character_die (w : World) (e : Entity) : Option World :=
  match w.corpseRelocate e with
  | none => none
  | some w2 =>
    match lookupA e w2.components.tile with
    | some Tile.player =>
      some { w2 with
             components :=
               { w2.components with
                 tile := insertA e Tile.playerCorpse w2.components.tile } }
    | some (Tile.npc k) =>
      some { w2 with
             components :=
               { w2.components with
                 tile := insertA e (Tile.npcCorpse k) w2.components.tile } }
    | _ => none

/-- world.rs `World::character_bump_attack`: fixed damage 1, saturating at 0
(Nat subtraction is saturating); death is triggered when the new value is 0.
An entity without hit points is skipped. -/
def World.character_bump_attack (w : World) (victim : Entity) : Option World :=
  match lookupA victim w.components.hit_points with
  | none => some w
  | some hp =>
    if hp.current - 1 = 0 then
      (w.setHp victim ⟨hp.current - 1, hp.max⟩).character_die victim
    else some (w.setHp victim ⟨hp.current - 1, hp.max⟩)

/-- world.rs `World::is_living_character`. -/
def World.is_living_character (w : World) (e : Entity) : Bool :=
  decide (w.spatial_table.layer_of e = some Layer.character)

/-- world.rs `World::maybe_move_character`. -/
def World.maybe_move_character (w : World) (ch : Entity) (d : CardinalDirection) :
    Option World :=
  match w.spatial_table.coord_of ch with
  | none => none
  | some c =>
    if (c.add d.coord).isValid w.spatial_table.grid_size then
      match (w.spatial_table.layers_at_checked (c.add d.coord)).character with
      | some destCh =>
        if (lookupA ch w.components.npc_type).isSome ≠
            (lookupA destCh w.components.npc_type).isSome then
          w.character_bump_attack destCh
        else some w
      | none =>
        if (w.spatial_table.layers_at_checked (c.add d.coord)).feature = none then
          match w.spatial_table.update_coord ch (c.add d.coord) with
          | Except.ok t => some { w with spatial_table := t }
          | Except.error _ => none
        else some w
    else some w

/-- world.rs `World::opacity_at`. -/
def World.opacity_at (w : World) (c : Coord) : Nat :=
  if (w.spatial_table.layers_at_checked c).feature.isSome then 255 else 0

/-- world.rs `World::spawn_floor`. -/
def World.spawn_floor (w : World) (c : Coord) : Option World :=
  match w.spatial_table.update w.entity_allocator.alloc.1 ⟨c, some Layer.floor⟩ with
  | Except.ok t =>
    some { entity_allocator := w.entity_allocator.alloc.2,
           components :=
             { w.components with
               tile := insertA w.entity_allocator.alloc.1 Tile.floor w.components.tile },
           spatial_table := t }
  | Except.error _ => none

/-- The hit points an NPC spawns with (world.rs `spawn_npc`). -/
def npcHitPoints : NpcType → HitPoints
  | .orc => HitPoints.new_full 2
  | .troll => HitPoints.new_full 6

/-- world.rs `World::spawn_npc`. -/
def World.spawn_npc (w : World) (c : Coord) (k : NpcType) : Option (World × Entity) :=
  match w.spatial_table.update w.entity_allocator.alloc.1 ⟨c, some Layer.character⟩ with
  | Except.ok t =>
    some ({ entity_allocator := w.entity_allocator.alloc.2,
            components :=
              { hit_points :=
                  insertA w.entity_allocator.alloc.1 (npcHitPoints k) w.components.hit_points,
                npc_type := insertA w.entity_allocator.alloc.1 k w.components.npc_type,
                tile := insertA w.entity_allocator.alloc.1 (Tile.npc k) w.components.tile },
            spatial_table := t }, w.entity_allocator.alloc.1)
  | Except.error _ => none

/-- world.rs `World::spawn_player`. -/
def World.spawn_player (w : World) (c : Coord) : Option (World × Entity) :=
  match w.spatial_table.update w.entity_allocator.alloc.1 ⟨c, some Layer.character⟩ with
  | Except.ok t =>
    some ({ entity_allocator := w.entity_allocator.alloc.2,
            components :=
              { hit_points :=
                  insertA w.entity_allocator.alloc.1 (HitPoints.new_full 20)
                    w.components.hit_points,
                npc_type := w.components.npc_type,
                tile := insertA w.entity_allocator.alloc.1 Tile.player w.components.tile },
            spatial_table := t }, w.entity_allocator.alloc.1)
  | Except.error _ => none

/-- world.rs `World::spawn_wall`. -/
def World.spawn_wall (w : World) (c : Coord) : Option World :=
  match w.spatial_table.update w.entity_allocator.alloc.1 ⟨c, some Layer.feature⟩ with
  | Except.ok t =>
    some { entity_allocator := w.entity_allocator.alloc.2,
           components :=
             { w.components with
               tile := insertA w.entity_allocator.alloc.1 Tile.wall w.components.tile },
           spatial_table := t }
  | Except.error _ => none

/-- world.rs `Populate`: the result of world population. -/
structure Populate where
  player_entity : Entity
  ai_state : List (Entity × Agent)
deriving DecidableEq, Repr

/-- One iteration of the population loop of world.rs `World::populate`. -/
def World.populateStep (w : World) (ai : List (Entity × Agent)) (pe : Option Entity)
    (ct : Coord × TerrainTile) :
    Option (World × List (Entity × Agent) × Option Entity) :=
  match ct.2 with
  | TerrainTile.floor => (w.spawn_floor ct.1).map (fun w1 => (w1, ai, pe))
  | TerrainTile.npc k =>
    match w.spawn_npc ct.1 k with
    | none => none
    | some (w1, e) =>
      match w1.spawn_floor ct.1 with
      | none => none
      | some w2 => some (w2, insertA e Agent.new ai, pe)
  | TerrainTile.player =>
    match w.spawn_floor ct.1 with
    | none => none
    | some w1 =>
      match w1.spawn_player ct.1 with
      | none => none
      | some (w2, e) => some (w2, ai, some e)
  | TerrainTile.wall =>
    match w.spawn_floor ct.1 with
    | none => none
    | some w1 => (w1.spawn_wall ct.1).map (fun w2 => (w2, ai, pe))

/-- The population loop of world.rs `World::populate`. -/
def World.populateAux (w : World) (ai : List (Entity × Agent)) (pe : Option Entity) :
    List (Coord × TerrainTile) →
    Option (World × List (Entity × Agent) × Option Entity)
  | [] => some (w, ai, pe)
  | ct :: rest =>
    match w.populateStep ai pe ct with
    | none => none
    | some (w1, ai1, pe1) => World.populateAux w1 ai1 pe1 rest

/-- world.rs `World::populate`.  Modelled from the spec: terrain generation is
an external collaborator, so the generator's enumeration of the grid is taken
as an argument. -/
def World.populate (w : World) (terrain : List (Coord × TerrainTile)) :
    Option (World × Populate) :=
  match w.populateAux [] none terrain with
  | none => none
  | some (w1, ai, some pe) => some (w1, ⟨pe, ai⟩)
  | some (_, _, none) => none

/-- The agreement invariant of the spatial table: the coordinate-to-entity
index (`cells`) and the entity-to-location index (`locs`) describe the same
placements. -/
def SpatialTable.Agrees (t : SpatialTable) : Prop :=
  ∀ (c : Coord) (l : Layer) (e : Entity),
    lookupA (c, l) t.cells = some e ↔ lookupA e t.locs = some ⟨c, some l⟩

/-- The world invariant: its spatial table agrees with itself. -/
def World.Inv (w : World) : Prop := w.spatial_table.Agrees

theorem inv_new (s : Size) : (World.new s).Inv := by
  intro c l e
  simp [World.new, SpatialTable.new, lookupA]

theorem clearSlot_not_self {t : SpatialTable} (hA : t.Agrees) (e : Entity)
    (c : Coord) (l : Layer) : lookupA (c, l) (t.clearSlotOf e) ≠ some e := by
  unfold SpatialTable.clearSlotOf
  cases hloc : lookupA e t.locs with
  | none =>
    intro h
    rw [(hA c l e)] at h
    rw [hloc] at h
    exact Option.noConfusion h
  | some loc =>
    obtain ⟨c0, ll⟩ := loc
    cases ll with
    | none =>
      intro h
      rw [(hA c l e)] at h
      rw [hloc] at h
      cases h
    | some l0 =>
      by_cases hk : ((c, l) : Coord × Layer) = (c0, l0)
      · rw [hk]
        rw [lookupA_eraseA_self]
        exact fun h => Option.noConfusion h
      · rw [lookupA_eraseA_ne hk]
        intro h
        rw [(hA c l e)] at h
        rw [hloc] at h
        cases h
        exact hk rfl

theorem clearSlot_other {t : SpatialTable} (hA : t.Agrees) {e x : Entity}
    (hx : x ≠ e) (c : Coord) (l : Layer) :
    lookupA (c, l) (t.clearSlotOf e) = some x ↔ lookupA (c, l) t.cells = some x := by
  unfold SpatialTable.clearSlotOf
  cases hloc : lookupA e t.locs with
  | none => exact Iff.rfl
  | some loc =>
    obtain ⟨c0, ll⟩ := loc
    cases ll with
    | none => exact Iff.rfl
    | some l0 =>
      by_cases hk : ((c, l) : Coord × Layer) = (c0, l0)
      · cases hk
        rw [lookupA_eraseA_self]
        constructor
        · intro h; exact Option.noConfusion h
        · intro h
          have he : lookupA (c, l) t.cells = some e := (hA c l e).mpr hloc
          rw [h] at he
          cases he
          exact absurd rfl hx
      · rw [lookupA_eraseA_ne hk]

theorem agrees_insert_core {t : SpatialTable} (hA : t.Agrees) (e : Entity)
    (lc : Coord) (l : Layer) (gs : Size)
    (hfree : ∀ x, lookupA (lc, l) t.cells = some x → x = e) :
    SpatialTable.Agrees
      ⟨gs, insertA (lc, l) e (t.clearSlotOf e),
       insertA e ⟨lc, some l⟩ t.locs⟩ := by
  intro c' l' x
  constructor
  · intro h
    by_cases hk : ((c', l') : Coord × Layer) = (lc, l)
    · cases hk
      rw [lookupA_insertA_self] at h
      cases h
      rw [lookupA_insertA_self]
    · rw [lookupA_insertA_ne hk] at h
      by_cases hx : x = e
      · subst hx
        exact absurd h (clearSlot_not_self hA x c' l')
      · have hc : lookupA (c', l') t.cells = some x := (clearSlot_other hA hx c' l').mp h
        have := (hA c' l' x).mp hc
        rw [lookupA_insertA_ne hx]
        exact this
  · intro h
    by_cases hx : x = e
    · subst hx
      rw [lookupA_insertA_self] at h
      cases h
      rw [lookupA_insertA_self]
    · rw [lookupA_insertA_ne hx] at h
      have hc : lookupA (c', l') t.cells = some x := (hA c' l' x).mpr h
      by_cases hk : ((c', l') : Coord × Layer) = (lc, l)
      · cases hk
        exact absurd (hfree x hc) hx
      · rw [lookupA_insertA_ne hk]
        exact (clearSlot_other hA hx c' l').mpr hc

theorem agrees_insert_none {t : SpatialTable} (hA : t.Agrees) (e : Entity)
    (lc : Coord) (gs : Size) :
    SpatialTable.Agrees ⟨gs, t.clearSlotOf e, insertA e ⟨lc, none⟩ t.locs⟩ := by
  intro c' l' x
  constructor
  · intro h
    by_cases hx : x = e
    · subst hx
      exact absurd h (clearSlot_not_self hA x c' l')
    · have hc := (clearSlot_other hA hx c' l').mp h
      rw [lookupA_insertA_ne hx]
      exact (hA c' l' x).mp hc
  · intro h
    by_cases hx : x = e
    · subst hx
      rw [lookupA_insertA_self] at h
      cases h
    · rw [lookupA_insertA_ne hx] at h
      exact (clearSlot_other hA hx c' l').mpr ((hA c' l' x).mpr h)

theorem agrees_update {t t' : SpatialTable} (hA : t.Agrees) {e : Entity}
    {loc : Location} (h : t.update e loc = Except.ok t') : t'.Agrees := by
  unfold SpatialTable.update at h
  split at h
  · exact absurd h (by simp)
  · obtain ⟨lc, ll⟩ := loc
    dsimp at h
    cases ll with
    | some l =>
      dsimp at h
      cases hcell : lookupA (lc, l) t.cells with
      | some occ =>
        rw [hcell] at h
        dsimp at h
        by_cases hocc : occ = e
        · rw [if_pos hocc] at h
          cases h
          exact agrees_insert_core hA e lc l t.gridSize
            (fun x hx => by rw [hcell] at hx; cases hx; exact hocc)
        · rw [if_neg hocc] at h
          exact absurd h (by simp)
      | none =>
        rw [hcell] at h
        dsimp at h
        cases h
        exact agrees_insert_core hA e lc l t.gridSize
          (fun x hx => by rw [hcell] at hx; cases hx)
    | none =>
      dsimp at h
      cases h
      exact agrees_insert_none hA e lc t.gridSize

theorem agrees_update_coord {t t' : SpatialTable} (hA : t.Agrees) {e : Entity}
    {c : Coord} (h : t.update_coord e c = Except.ok t') : t'.Agrees := by
  unfold SpatialTable.update_coord at h
  cases hloc : lookupA e t.locs with
  | none => rw [hloc] at h; exact absurd h (by simp)
  | some loc => rw [hloc] at h; exact agrees_update hA h

theorem agrees_update_layer {t t' : SpatialTable} (hA : t.Agrees) {e : Entity}
    {l : Layer} (h : t.update_layer e l = Except.ok t') : t'.Agrees := by
  unfold SpatialTable.update_layer at h
  cases hloc : lookupA e t.locs with
  | none => rw [hloc] at h; exact absurd h (by simp)
  | some loc => rw [hloc] at h; exact agrees_update hA h

theorem agrees_remove {t : SpatialTable} (hA : t.Agrees) (e : Entity) :
    (t.remove e).Agrees := by
  intro c' l' x
  unfold SpatialTable.remove
  constructor
  · intro h
    by_cases hx : x = e
    · subst hx
      exact absurd h (clearSlot_not_self hA x c' l')
    · have hc := (clearSlot_other hA hx c' l').mp h
      dsimp
      rw [lookupA_eraseA_ne hx]
      exact (hA c' l' x).mp hc
  · intro h
    dsimp at h
    by_cases hx : x = e
    · subst hx
      rw [lookupA_eraseA_self] at h
      cases h
    · rw [lookupA_eraseA_ne hx] at h
      exact (clearSlot_other hA hx c' l').mpr ((hA c' l' x).mpr h)

theorem inv_remove_entity {w : World} (hA : w.Inv) (e : Entity) :
    (w.remove_entity e).Inv := agrees_remove hA e

theorem inv_corpseRelocate {w w' : World} (hA : w.Inv) {e : Entity}
    (h : w.corpseRelocate e = some w') : w'.Inv := by
  unfold World.corpseRelocate at h
  cases hu : w.spatial_table.update_layer e Layer.corpse with
  | ok t =>
    rw [hu] at h
    cases h
    exact agrees_update_layer hA hu
  | error err =>
    rw [hu] at h
    cases err with
    | occupiedBy o =>
      dsimp at h
      cases hu2 : (w.remove_entity o).spatial_table.update_layer e Layer.corpse with
      | ok t =>
        rw [hu2] at h
        cases h
        exact agrees_update_layer (inv_remove_entity hA o) hu2
      | error err2 =>
        rw [hu2] at h
        exact absurd h (by simp)
    | destinationOutOfBounds => exact absurd h (by simp)
    | noLocation => exact absurd h (by simp)

theorem inv_character_die {w w' : World} (hA : w.Inv) {e : Entity}
    (h : w.character_die e = some w') : w'.Inv := by
  unfold World.character_die at h
  cases hr : w.corpseRelocate e with
  | none => rw [hr] at h; exact absurd h (by simp)
  | some w2 =>
    rw [hr] at h
    have h2 : w2.Inv := inv_corpseRelocate hA hr
    dsimp at h
    cases ht : lookupA e w2.components.tile with
    | none => rw [ht] at h; exact absurd h (by simp)
    | some tl =>
      rw [ht] at h
      cases tl with
      | player => dsimp at h; cases h; exact h2
      | npc k => dsimp at h; cases h; exact h2
      | floor => dsimp at h; exact absurd h (by simp)
      | npcCorpse k => dsimp at h; exact absurd h (by simp)
      | playerCorpse => dsimp at h; exact absurd h (by simp)
      | wall => dsimp at h; exact absurd h (by simp)

theorem inv_character_bump_attack {w w' : World} (hA : w.Inv) {v : Entity}
    (h : w.character_bump_attack v = some w') : w'.Inv := by
  unfold World.character_bump_attack at h
  cases hp : lookupA v w.components.hit_points with
  | none => rw [hp] at h; cases h; exact hA
  | some hpv =>
    rw [hp] at h
    dsimp at h
    split at h
    · exact @inv_character_die (w.setHp v ⟨hpv.current - 1, hpv.max⟩) w' hA v h
    · cases h; exact hA

theorem inv_maybe_move_character {w w' : World} (hA : w.Inv) {ch : Entity}
    {d : CardinalDirection} (h : w.maybe_move_character ch d = some w') : w'.Inv := by
  unfold World.maybe_move_character at h
  cases hc : w.spatial_table.coord_of ch with
  | none => rw [hc] at h; exact absurd h (by simp)
  | some c =>
    rw [hc] at h
    dsimp at h
    split at h
    · split at h
      · split at h
        · exact inv_character_bump_attack hA h
        · cases h; exact hA
      · split at h
        · cases hu : w.spatial_table.update_coord ch (c.add d.coord) with
          | ok t => rw [hu] at h; cases h; exact agrees_update_coord hA hu
          | error err => rw [hu] at h; exact absurd h (by simp)
        · cases h; exact hA
    · cases h; exact hA

theorem inv_spawn_floor {w w' : World} (hA : w.Inv) {c : Coord}
    (h : w.spawn_floor c = some w') : w'.Inv := by
  unfold World.spawn_floor at h
  cases hu : w.spatial_table.update (w.entity_allocator.alloc).1
      ⟨c, some Layer.floor⟩ with
  | ok t => rw [hu] at h; cases h; exact agrees_update hA hu
  | error err => rw [hu] at h; exact absurd h (by simp)

theorem inv_spawn_wall {w w' : World} (hA : w.Inv) {c : Coord}
    (h : w.spawn_wall c = some w') : w'.Inv := by
  unfold World.spawn_wall at h
  cases hu : w.spatial_table.update (w.entity_allocator.alloc).1
      ⟨c, some Layer.feature⟩ with
  | ok t => rw [hu] at h; cases h; exact agrees_update hA hu
  | error err => rw [hu] at h; exact absurd h (by simp)

theorem inv_spawn_npc {w w' : World} (hA : w.Inv) {c : Coord} {k : NpcType}
    {e : Entity} (h : w.spawn_npc c k = some (w', e)) : w'.Inv := by
  unfold World.spawn_npc at h
  cases hu : w.spatial_table.update (w.entity_allocator.alloc).1
      ⟨c, some Layer.character⟩ with
  | ok t => rw [hu] at h; cases h; exact agrees_update hA hu
  | error err => rw [hu] at h; exact absurd h (by simp)

theorem inv_spawn_player {w w' : World} (hA : w.Inv) {c : Coord}
    {e : Entity} (h : w.spawn_player c = some (w', e)) : w'.Inv := by
  unfold World.spawn_player at h
  cases hu : w.spatial_table.update (w.entity_allocator.alloc).1
      ⟨c, some Layer.character⟩ with
  | ok t => rw [hu] at h; cases h; exact agrees_update hA hu
  | error err => rw [hu] at h; exact absurd h (by simp)

theorem inv_populateStep {w w' : World} (hA : w.Inv)
    {ai ai' : List (Entity × Agent)} {pe pe' : Option Entity}
    {ct : Coord × TerrainTile}
    (h : w.populateStep ai pe ct = some (w', ai', pe')) : w'.Inv := by
  obtain ⟨cc, tt⟩ := ct
  unfold World.populateStep at h
  cases tt with
  | floor =>
    dsimp only at h
    cases hf : w.spawn_floor cc with
    | none => rw [hf] at h; exact absurd h (by simp)
    | some w1 => rw [hf] at h; cases h; exact inv_spawn_floor hA hf
  | npc k =>
    dsimp only at h
    cases hn : w.spawn_npc cc k with
    | none => rw [hn] at h; exact absurd h (by simp)
    | some p =>
      obtain ⟨w1, e⟩ := p
      rw [hn] at h
      dsimp only at h
      cases hf : w1.spawn_floor cc with
      | none => rw [hf] at h; exact absurd h (by simp)
      | some w2 =>
        rw [hf] at h
        cases h
        exact inv_spawn_floor (inv_spawn_npc hA hn) hf
  | player =>
    dsimp only at h
    cases hf : w.spawn_floor cc with
    | none => rw [hf] at h; exact absurd h (by simp)
    | some w1 =>
      rw [hf] at h
      dsimp only at h
      cases hp : w1.spawn_player cc with
      | none => rw [hp] at h; exact absurd h (by simp)
      | some p =>
        obtain ⟨w2, e⟩ := p
        rw [hp] at h
        cases h
        exact inv_spawn_player (inv_spawn_floor hA hf) hp
  | wall =>
    dsimp only at h
    cases hf : w.spawn_floor cc with
    | none => rw [hf] at h; exact absurd h (by simp)
    | some w1 =>
      rw [hf] at h
      dsimp only at h
      cases hw : w1.spawn_wall cc with
      | none => rw [hw] at h; exact absurd h (by simp)
      | some w2 => rw [hw] at h; cases h; exact inv_spawn_wall (inv_spawn_floor hA hf) hw

theorem inv_populateAux {terrain : List (Coord × TerrainTile)} :
    ∀ {w w' : World} {ai ai' : List (Entity × Agent)} {pe pe' : Option Entity},
      w.Inv → w.populateAux ai pe terrain = some (w', ai', pe') → w'.Inv := by
  induction terrain with
  | nil =>
    intro w w' ai ai' pe pe' hA h
    unfold World.populateAux at h
    cases h
    exact hA
  | cons ct rest ih =>
    intro w w' ai ai' pe pe' hA h
    unfold World.populateAux at h
    cases hs : w.populateStep ai pe ct with
    | none => rw [hs] at h; exact absurd h (by simp)
    | some r =>
      obtain ⟨w1, ai1, pe1⟩ := r
      rw [hs] at h
      exact ih (inv_populateStep hA hs) h

theorem inv_populate {w w' : World} {terrain : List (Coord × TerrainTile)}
    {p : Populate} (hA : w.Inv) (h : w.populate terrain = some (w', p)) :
    w'.Inv := by
  unfold World.populate at h
  cases ha : w.populateAux [] none terrain with
  | none => rw [ha] at h; exact absurd h (by simp)
  | some r =>
    obtain ⟨w1, ai, pe⟩ := r
    rw [ha] at h
    cases pe with
    | none => exact absurd h (by simp)
    | some pv =>
      dsimp at h
      cases h
      exact inv_populateAux hA ha

theorem update_layer_eq {t : SpatialTable} {e : Entity} {loc : Location}
    (hloc : lookupA e t.locs = some loc) (l : Layer) :
    t.update_layer e l = t.update e ⟨loc.coord, some l⟩ := by
  unfold SpatialTable.update_layer
  rw [hloc]

/-- Full characterization of the corpse-relocation phase of `character_die`
for an entity currently on the Character layer. -/
theorem corpseRelocate_inversion {w w2 : World} {e : Entity} {c : Coord}
    (hA : w.Inv)
    (hloc : lookupA e w.spatial_table.locs = some ⟨c, some Layer.character⟩)
    (h : w.corpseRelocate e = some w2) :
    w2.Inv ∧
    lookupA e w2.spatial_table.locs = some ⟨c, some Layer.corpse⟩ ∧
    (lookupA (c, Layer.corpse) w.spatial_table.cells = none →
      w2.components = w.components ∧ w2.entity_allocator = w.entity_allocator) ∧
    (∀ o, lookupA (c, Layer.corpse) w.spatial_table.cells = some o →
      o ≠ e ∧ w2.components = w.components.remove_entity o ∧
      w2.entity_allocator = w.entity_allocator.free o ∧
      lookupA o w2.spatial_table.locs = none) ∧
    (∀ x, x ≠ e → lookupA (c, Layer.corpse) w.spatial_table.cells ≠ some x →
      lookupA x w2.spatial_table.locs = lookupA x w.spatial_table.locs) := by
  unfold World.corpseRelocate at h
  rw [update_layer_eq hloc Layer.corpse] at h
  by_cases hval : Coord.isValid c w.spatial_table.gridSize = false
  · rw [show w.spatial_table.update e ⟨c, some Layer.corpse⟩ =
        Except.error UpdateError.destinationOutOfBounds by
      unfold SpatialTable.update
      rw [if_pos hval]] at h
    exact absurd h (by simp)
  · cases hcorp : lookupA (c, Layer.corpse) w.spatial_table.cells with
    | none =>
      have hupd : w.spatial_table.update e ⟨c, some Layer.corpse⟩ =
          Except.ok
            ⟨w.spatial_table.gridSize,
             insertA (c, Layer.corpse) e (w.spatial_table.clearSlotOf e),
             insertA e ⟨c, some Layer.corpse⟩ w.spatial_table.locs⟩ := by
        unfold SpatialTable.update
        rw [if_neg hval]
        dsimp
        rw [hcorp]
      rw [hupd] at h
      dsimp at h
      cases h
      refine ⟨agrees_update hA hupd, ?_, ?_, ?_, ?_⟩
      · exact lookupA_insertA_self e _ _
      · exact fun _ => ⟨rfl, rfl⟩
      · intro o ho
        cases ho
      · intro x hx hxo
        exact lookupA_insertA_ne hx _ _
    | some o =>
      have hone : o ≠ e := by
        intro heq
        subst heq
        have := (hA c Layer.corpse o).mp hcorp
        rw [hloc] at this
        cases this
      have hupd : w.spatial_table.update e ⟨c, some Layer.corpse⟩ =
          Except.error (UpdateError.occupiedBy o) := by
        unfold SpatialTable.update
        rw [if_neg hval]
        dsimp
        rw [hcorp]
        dsimp
        rw [if_neg hone]
      rw [hupd] at h
      dsimp at h
      have holoc : lookupA o w.spatial_table.locs = some ⟨c, some Layer.corpse⟩ :=
        (hA c Layer.corpse o).mp hcorp
      have hcells1 : (w.remove_entity o).spatial_table.cells =
          eraseA (c, Layer.corpse) w.spatial_table.cells := by
        show (w.spatial_table.remove o).cells = _
        unfold SpatialTable.remove SpatialTable.clearSlotOf
        rw [holoc]
      have hlocs1 : (w.remove_entity o).spatial_table.locs =
          eraseA o w.spatial_table.locs := rfl
      have hloc1 : lookupA e (w.remove_entity o).spatial_table.locs =
          some ⟨c, some Layer.character⟩ := by
        rw [hlocs1, lookupA_eraseA_ne (fun hh => hone hh.symm), hloc]
      rw [update_layer_eq hloc1 Layer.corpse] at h
      have hupd2 : (w.remove_entity o).spatial_table.update e ⟨c, some Layer.corpse⟩ =
          Except.ok
            ⟨(w.remove_entity o).spatial_table.gridSize,
             insertA (c, Layer.corpse) e
               ((w.remove_entity o).spatial_table.clearSlotOf e),
             insertA e ⟨c, some Layer.corpse⟩
               (w.remove_entity o).spatial_table.locs⟩ := by
        unfold SpatialTable.update
        rw [if_neg (show ¬Coord.isValid c
            (w.remove_entity o).spatial_table.gridSize = false from hval)]
        dsimp
        rw [show lookupA (c, Layer.corpse) (w.remove_entity o).spatial_table.cells =
            none by rw [hcells1]; exact lookupA_eraseA_self _ _]
      rw [hupd2] at h
      dsimp at h
      cases h
      refine ⟨agrees_update (agrees_remove hA o) hupd2, ?_, ?_, ?_, ?_⟩
      · exact lookupA_insertA_self e _ _
      · intro hnone
        cases hnone
      · intro o' ho'
        cases ho'
        refine ⟨hone, rfl, rfl, ?_⟩
        show lookupA o (insertA e ⟨c, some Layer.corpse⟩
          (w.remove_entity o).spatial_table.locs) = none
        rw [lookupA_insertA_ne hone, hlocs1, lookupA_eraseA_self]
      · intro x hx hxo
        have hxobis : x ≠ o := fun hh => hxo (by rw [hh])
        show lookupA x (insertA e ⟨c, some Layer.corpse⟩
          (w.remove_entity o).spatial_table.locs) = _
        rw [lookupA_insertA_ne hx, hlocs1, lookupA_eraseA_ne hxobis]

/-- Full characterization of `character_die` for an entity on the Character
layer: tile conversion, relocation to the Corpse layer, removal of a
pre-existing corpse, and frame conditions. -/
theorem die_inversion {w w' : World} {e : Entity} {c : Coord}
    (hA : w.Inv)
    (hloc : lookupA e w.spatial_table.locs = some ⟨c, some Layer.character⟩)
    (h : w.character_die e = some w') :
    w'.Inv ∧
    lookupA e w'.spatial_table.locs = some ⟨c, some Layer.corpse⟩ ∧
    (∀ k, lookupA e w.components.tile = some (Tile.npc k) →
      lookupA e w'.components.tile = some (Tile.npcCorpse k)) ∧
    (lookupA e w.components.tile = some Tile.player →
      lookupA e w'.components.tile = some Tile.playerCorpse) ∧
    lookupA e w'.components.hit_points = lookupA e w.components.hit_points ∧
    lookupA e w'.components.npc_type = lookupA e w.components.npc_type ∧
    (∀ o, lookupA (c, Layer.corpse) w.spatial_table.cells = some o →
      o ≠ e ∧ lookupA o w'.spatial_table.locs = none ∧
      lookupA o w'.components.tile = none ∧
      lookupA o w'.components.hit_points = none ∧
      lookupA o w'.components.npc_type = none) ∧
    (lookupA (c, Layer.corpse) w.spatial_table.cells = none →
      w'.entity_allocator = w.entity_allocator) ∧
    (∀ o, lookupA (c, Layer.corpse) w.spatial_table.cells = some o →
      w'.entity_allocator = w.entity_allocator.free o) ∧
    (∀ x, x ≠ e → lookupA (c, Layer.corpse) w.spatial_table.cells ≠ some x →
      lookupA x w'.spatial_table.locs = lookupA x w.spatial_table.locs ∧
      lookupA x w'.components.tile = lookupA x w.components.tile ∧
      lookupA x w'.components.hit_points = lookupA x w.components.hit_points ∧
      lookupA x w'.components.npc_type = lookupA x w.components.npc_type) := by
  unfold World.character_die at h
  cases hr : w.corpseRelocate e with
  | none => rw [hr] at h; exact absurd h (by simp)
  | some w2 =>
    rw [hr] at h
    obtain ⟨h2A, h2loc, h2none, h2some, h2frame⟩ := corpseRelocate_inversion hA hloc hr
    have hcompe : lookupA e w2.components.tile = lookupA e w.components.tile ∧
        lookupA e w2.components.hit_points = lookupA e w.components.hit_points ∧
        lookupA e w2.components.npc_type = lookupA e w.components.npc_type := by
      cases hcorp : lookupA (c, Layer.corpse) w.spatial_table.cells with
      | none => rw [(h2none hcorp).1]; exact ⟨rfl, rfl, rfl⟩
      | some o =>
        obtain ⟨hone, hcomp, _, _⟩ := h2some o hcorp
        rw [hcomp]
        have hne : e ≠ o := fun hh => hone hh.symm
        exact ⟨lookupA_eraseA_ne hne _, lookupA_eraseA_ne hne _,
          lookupA_eraseA_ne hne _⟩
    have hcompx : ∀ x, x ≠ e →
        lookupA (c, Layer.corpse) w.spatial_table.cells ≠ some x →
        lookupA x w2.components.tile = lookupA x w.components.tile ∧
        lookupA x w2.components.hit_points = lookupA x w.components.hit_points ∧
        lookupA x w2.components.npc_type = lookupA x w.components.npc_type := by
      intro x hx hxo
      cases hcorp : lookupA (c, Layer.corpse) w.spatial_table.cells with
      | none => rw [(h2none hcorp).1]; exact ⟨rfl, rfl, rfl⟩
      | some o =>
        obtain ⟨hone, hcomp, _, _⟩ := h2some o hcorp
        rw [hcomp]
        have hne : x ≠ o := by
          intro hh
          rw [hh] at hxo
          exact hxo hcorp
        exact ⟨lookupA_eraseA_ne hne _, lookupA_eraseA_ne hne _,
          lookupA_eraseA_ne hne _⟩
    have hofacts : ∀ o, lookupA (c, Layer.corpse) w.spatial_table.cells = some o →
        o ≠ e ∧ lookupA o w2.spatial_table.locs = none ∧
        lookupA o w2.components.tile = none ∧
        lookupA o w2.components.hit_points = none ∧
        lookupA o w2.components.npc_type = none := by
      intro o ho
      obtain ⟨hone, hcomp, _, holocs⟩ := h2some o ho
      rw [hcomp]
      exact ⟨hone, holocs, lookupA_eraseA_self _ _, lookupA_eraseA_self _ _,
        lookupA_eraseA_self _ _⟩
    dsimp at h
    cases ht : lookupA e w2.components.tile with
    | none => rw [ht] at h; exact absurd h (by simp)
    | some tl =>
      rw [ht] at h
      have htw : lookupA e w.components.tile = some tl := by
        rw [← hcompe.1]; exact ht
      cases tl with
      | player =>
        dsimp at h
        cases h
        refine ⟨h2A, h2loc, ?_, ?_, hcompe.2.1, hcompe.2.2, ?_, ?_, ?_, ?_⟩
        · intro k hk
          rw [htw] at hk
          cases hk
        · intro _
          exact lookupA_insertA_self e _ _
        · intro o ho
          obtain ⟨hone, holocs, hot, hohp, honpc⟩ := hofacts o ho
          refine ⟨hone, holocs, ?_, hohp, honpc⟩
          show lookupA o (insertA e Tile.playerCorpse w2.components.tile) = none
          rw [lookupA_insertA_ne hone, hot]
        · intro hnone
          exact (h2none hnone).2
        · intro o ho
          exact (h2some o ho).2.2.1
        · intro x hx hxo
          obtain ⟨hxt, hxhp, hxnpc⟩ := hcompx x hx hxo
          refine ⟨h2frame x hx hxo, ?_, hxhp, hxnpc⟩
          show lookupA x (insertA e Tile.playerCorpse w2.components.tile) = _
          rw [lookupA_insertA_ne hx, hxt]
      | npc k0 =>
        dsimp at h
        cases h
        refine ⟨h2A, h2loc, ?_, ?_, hcompe.2.1, hcompe.2.2, ?_, ?_, ?_, ?_⟩
        · intro k hk
          rw [htw] at hk
          cases hk
          exact lookupA_insertA_self e _ _
        · intro hk
          rw [htw] at hk
          cases hk
        · intro o ho
          obtain ⟨hone, holocs, hot, hohp, honpc⟩ := hofacts o ho
          refine ⟨hone, holocs, ?_, hohp, honpc⟩
          show lookupA o (insertA e (Tile.npcCorpse k0) w2.components.tile) = none
          rw [lookupA_insertA_ne hone, hot]
        · intro hnone
          exact (h2none hnone).2
        · intro o ho
          exact (h2some o ho).2.2.1
        · intro x hx hxo
          obtain ⟨hxt, hxhp, hxnpc⟩ := hcompx x hx hxo
          refine ⟨h2frame x hx hxo, ?_, hxhp, hxnpc⟩
          show lookupA x (insertA e (Tile.npcCorpse k0) w2.components.tile) = _
          rw [lookupA_insertA_ne hx, hxt]
      | floor => dsimp at h; exact absurd h (by simp)
      | npcCorpse k0 => dsimp at h; exact absurd h (by simp)
      | playerCorpse => dsimp at h; exact absurd h (by simp)
      | wall => dsimp at h; exact absurd h (by simp)

/-- C2: when a character on the Character layer dies, its Tile component is
converted to the matching corpse variant and the entity moves to the Corpse
layer at its own coordinate; a pre-existing corpse in that slot is fully
removed — afterwards it is not retrievable from any component table or from
the spatial table — and the dying entity claims the slot alone. -/
theorem death_converts_and_replaces_corpse (w w' : World) (e : Entity) (c : Coord)
    (hA : w.Inv)
    (hloc : lookupA e w.spatial_table.locs = some ⟨c, some Layer.character⟩)
    (h : w.character_die e = some w') :
    (∀ k, lookupA e w.components.tile = some (Tile.npc k) →
      lookupA e w'.components.tile = some (Tile.npcCorpse k)) ∧
    (lookupA e w.components.tile = some Tile.player →
      lookupA e w'.components.tile = some Tile.playerCorpse) ∧
    lookupA e w'.spatial_table.locs = some ⟨c, some Layer.corpse⟩ ∧
    lookupA (c, Layer.corpse) w'.spatial_table.cells = some e ∧
    (∀ o, lookupA (c, Layer.corpse) w.spatial_table.cells = some o →
      lookupA o w'.components.tile = none ∧
      lookupA o w'.components.hit_points = none ∧
      lookupA o w'.components.npc_type = none ∧
      lookupA o w'.spatial_table.locs = none ∧
      (∀ (c2 : Coord) (l2 : Layer),
        lookupA (c2, l2) w'.spatial_table.cells ≠ some o)) := by
  obtain ⟨hA', hloc', hnpc, hpl, _, _, hofacts, _, _, _⟩ := die_inversion hA hloc h
  refine ⟨hnpc, hpl, hloc', (hA' c Layer.corpse e).mpr hloc', ?_⟩
  intro o ho
  obtain ⟨hone, holocs, hot, hohp, honpc⟩ := hofacts o ho
  refine ⟨hot, hohp, honpc, holocs, ?_⟩
  intro c2 l2 hcell
  have := (hA' c2 l2 o).mp hcell
  rw [holocs] at this
  cases this

/-- C10: character_die changes only the dying entity's Tile component and its
layer (Character to Corpse); its coordinate, hit points and NPC type, and
every other entity's state (except a replaced pre-existing corpse) are
unchanged, and only the replaced corpse — never the dying entity — is freed
from the allocator. -/
theorem die_frame_effect (w w' : World) (e : Entity) (c : Coord)
    (hA : w.Inv)
    (hloc : lookupA e w.spatial_table.locs = some ⟨c, some Layer.character⟩)
    (h : w.character_die e = some w') :
    (lookupA e w'.spatial_table.locs).map Location.coord = some c ∧
    lookupA e w'.spatial_table.locs = some ⟨c, some Layer.corpse⟩ ∧
    lookupA e w'.components.hit_points = lookupA e w.components.hit_points ∧
    lookupA e w'.components.npc_type = lookupA e w.components.npc_type ∧
    (lookupA (c, Layer.corpse) w.spatial_table.cells = none →
      w'.entity_allocator = w.entity_allocator) ∧
    (∀ o, lookupA (c, Layer.corpse) w.spatial_table.cells = some o →
      o ≠ e ∧ w'.entity_allocator = w.entity_allocator.free o) ∧
    (∀ x, x ≠ e → lookupA (c, Layer.corpse) w.spatial_table.cells ≠ some x →
      lookupA x w'.spatial_table.locs = lookupA x w.spatial_table.locs ∧
      lookupA x w'.components.tile = lookupA x w.components.tile ∧
      lookupA x w'.components.hit_points = lookupA x w.components.hit_points ∧
      lookupA x w'.components.npc_type = lookupA x w.components.npc_type) := by
  obtain ⟨hA', hloc', _, _, hhp, hnpc, hofacts, hallocn, hallocs, hframe⟩ :=
    die_inversion hA hloc h
  refine ⟨?_, hloc', hhp, hnpc, hallocn, ?_, hframe⟩
  · rw [hloc']
    rfl
  · intro o ho
    exact ⟨(hofacts o ho).1, hallocs o ho⟩

/-- A concrete world used by witnesses: a 1x1 grid holding a single player
character at the origin. -/
def wD : World :=
  match (World.new ⟨1, 1⟩).spawn_player ⟨0, 0⟩ with
  | some p => p.1
  | none => World.new ⟨1, 1⟩

def pD : Entity := ⟨0, 0⟩

theorem wD_spawn : (World.new ⟨1, 1⟩).spawn_player ⟨0, 0⟩ = some (wD, pD) := rfl

theorem wD_inv : wD.Inv := inv_spawn_player (inv_new ⟨1, 1⟩) wD_spawn

/-- The world after the player in `wD` dies. -/
def wD' : World := (wD.character_die pD).getD wD

theorem death_converts_and_replaces_corpse_witness :
    wD.Inv ∧
    lookupA pD wD.spatial_table.locs = some ⟨⟨0, 0⟩, some Layer.character⟩ ∧
    wD.character_die pD = some wD' ∧
    lookupA pD wD'.components.tile = some Tile.playerCorpse :=
  ⟨wD_inv, rfl, rfl,
   (death_converts_and_replaces_corpse wD wD' pD ⟨0, 0⟩ wD_inv rfl rfl).2.1 rfl⟩

theorem die_frame_effect_witness :
    wD.Inv ∧
    lookupA pD wD.spatial_table.locs = some ⟨⟨0, 0⟩, some Layer.character⟩ ∧
    wD.character_die pD = some wD' ∧
    lookupA pD wD'.components.hit_points = lookupA pD wD.components.hit_points :=
  ⟨wD_inv, rfl, rfl,
   (die_frame_effect wD wD' pD ⟨0, 0⟩ wD_inv rfl rfl).2.2.1⟩

theorem bump_attack_decrement {w : World} {v : Entity} {hp : HitPoints}
    (hhp : lookupA v w.components.hit_points = some hp) (h1 : 1 < hp.current) :
    w.character_bump_attack v = some (w.setHp v ⟨hp.current - 1, hp.max⟩) := by
  unfold World.character_bump_attack
  rw [hhp]
  dsimp
  rw [if_neg (by omega)]

theorem bump_attack_kill_eq {w : World} {v : Entity} {hp : HitPoints}
    (hhp : lookupA v w.components.hit_points = some hp) (h1 : hp.current ≤ 1) :
    w.character_bump_attack v = (w.setHp v ⟨0, hp.max⟩).character_die v := by
  unfold World.character_bump_attack
  rw [hhp]
  have h0 : hp.current - 1 = 0 := by omega
  dsimp
  rw [h0, if_pos rfl]

/-- The corpse-relocation phase succeeds for a character on an in-bounds
coordinate. -/
theorem corpseRelocate_ok {w : World} {e : Entity} {c : Coord}
    (hA : w.Inv)
    (hloc : lookupA e w.spatial_table.locs = some ⟨c, some Layer.character⟩)
    (hval : ¬Coord.isValid c w.spatial_table.gridSize = false) :
    ∃ w2, w.corpseRelocate e = some w2 := by
  cases hcorp : lookupA (c, Layer.corpse) w.spatial_table.cells with
  | none =>
    have hupd : w.spatial_table.update e ⟨c, some Layer.corpse⟩ =
        Except.ok
          ⟨w.spatial_table.gridSize,
           insertA (c, Layer.corpse) e (w.spatial_table.clearSlotOf e),
           insertA e ⟨c, some Layer.corpse⟩ w.spatial_table.locs⟩ := by
      unfold SpatialTable.update
      rw [if_neg hval]
      dsimp
      rw [hcorp]
    refine ⟨{ w with spatial_table :=
        ⟨w.spatial_table.gridSize,
         insertA (c, Layer.corpse) e (w.spatial_table.clearSlotOf e),
         insertA e ⟨c, some Layer.corpse⟩ w.spatial_table.locs⟩ }, ?_⟩
    unfold World.corpseRelocate
    rw [update_layer_eq hloc Layer.corpse, hupd]
  | some o =>
    have hone : o ≠ e := by
      intro heq
      subst heq
      have := (hA c Layer.corpse o).mp hcorp
      rw [hloc] at this
      cases this
    have hupd : w.spatial_table.update e ⟨c, some Layer.corpse⟩ =
        Except.error (UpdateError.occupiedBy o) := by
      unfold SpatialTable.update
      rw [if_neg hval]
      dsimp
      rw [hcorp]
      dsimp
      rw [if_neg hone]
    have holoc : lookupA o w.spatial_table.locs = some ⟨c, some Layer.corpse⟩ :=
      (hA c Layer.corpse o).mp hcorp
    have hcells1 : (w.remove_entity o).spatial_table.cells =
        eraseA (c, Layer.corpse) w.spatial_table.cells := by
      show (w.spatial_table.remove o).cells = _
      unfold SpatialTable.remove SpatialTable.clearSlotOf
      rw [holoc]
    have hloc1 : lookupA e (w.remove_entity o).spatial_table.locs =
        some ⟨c, some Layer.character⟩ := by
      show lookupA e (eraseA o w.spatial_table.locs) = _
      rw [lookupA_eraseA_ne (fun hh => hone hh.symm), hloc]
    have hupd2 : (w.remove_entity o).spatial_table.update e ⟨c, some Layer.corpse⟩ =
        Except.ok
          ⟨(w.remove_entity o).spatial_table.gridSize,
           insertA (c, Layer.corpse) e
             ((w.remove_entity o).spatial_table.clearSlotOf e),
           insertA e ⟨c, some Layer.corpse⟩
             (w.remove_entity o).spatial_table.locs⟩ := by
      unfold SpatialTable.update
      rw [if_neg (show ¬Coord.isValid c
          (w.remove_entity o).spatial_table.gridSize = false from hval)]
      dsimp
      rw [show lookupA (c, Layer.corpse) (w.remove_entity o).spatial_table.cells =
          none by rw [hcells1]; exact lookupA_eraseA_self _ _]
    refine ⟨{ w.remove_entity o with spatial_table :=
        ⟨(w.remove_entity o).spatial_table.gridSize,
         insertA (c, Layer.corpse) e
           ((w.remove_entity o).spatial_table.clearSlotOf e),
         insertA e ⟨c, some Layer.corpse⟩
           (w.remove_entity o).spatial_table.locs⟩ }, ?_⟩
    unfold World.corpseRelocate
    rw [update_layer_eq hloc Layer.corpse, hupd]
    dsimp
    rw [update_layer_eq hloc1 Layer.corpse, hupd2]

/-- `character_die` succeeds for a character on an in-bounds coordinate whose
tile is a player or NPC tile. -/
theorem character_die_ok {w : World} {e : Entity} {c : Coord}
    (hA : w.Inv)
    (hloc : lookupA e w.spatial_table.locs = some ⟨c, some Layer.character⟩)
    (hval : ¬Coord.isValid c w.spatial_table.gridSize = false)
    (htile : lookupA e w.components.tile = some Tile.player ∨
      ∃ k, lookupA e w.components.tile = some (Tile.npc k)) :
    ∃ w', w.character_die e = some w' := by
  obtain ⟨w2, hr⟩ := corpseRelocate_ok hA hloc hval
  obtain ⟨_, _, h2none, h2some, _⟩ := corpseRelocate_inversion hA hloc hr
  have htile2 : lookupA e w2.components.tile = lookupA e w.components.tile := by
    cases hcorp : lookupA (c, Layer.corpse) w.spatial_table.cells with
    | none => rw [(h2none hcorp).1]
    | some o =>
      obtain ⟨hone, hcomp, _, _⟩ := h2some o hcorp
      rw [hcomp]
      exact lookupA_eraseA_ne (fun hh => hone hh.symm) _
  rcases htile with hp | ⟨k, hk⟩
  · refine ⟨{ w2 with components :=
        { w2.components with
          tile := insertA e Tile.playerCorpse w2.components.tile } }, ?_⟩
    unfold World.character_die
    rw [hr]
    dsimp
    rw [htile2.trans hp]
  · refine ⟨{ w2 with components :=
        { w2.components with
          tile := insertA e (Tile.npcCorpse k) w2.components.tile } }, ?_⟩
    unfold World.character_die
    rw [hr]
    dsimp
    rw [htile2.trans hk]

/-- A bump attack on an NPC character at 1 or 0 hit points kills it: the entity
ends on the Corpse layer with the corpse tile and 0 hit points. -/
theorem bump_attack_kills {w : World} {v : Entity} {c : Coord} {k : NpcType}
    {cur m : Nat}
    (hA : w.Inv)
    (hval : ¬Coord.isValid c w.spatial_table.gridSize = false)
    (hloc : lookupA v w.spatial_table.locs = some ⟨c, some Layer.character⟩)
    (htile : lookupA v w.components.tile = some (Tile.npc k))
    (hhp : lookupA v w.components.hit_points = some ⟨cur, m⟩)
    (hcur : cur ≤ 1) :
    ∃ w', w.character_bump_attack v = some w' ∧
      w'.is_living_character v = false ∧
      lookupA v w'.components.hit_points = some ⟨0, m⟩ ∧
      lookupA v w'.components.tile = some (Tile.npcCorpse k) ∧
      lookupA v w'.spatial_table.locs = some ⟨c, some Layer.corpse⟩ ∧
      w'.Inv := by
  have hkill : w.character_bump_attack v = (w.setHp v ⟨0, m⟩).character_die v :=
    bump_attack_kill_eq hhp hcur
  have hA0 : (w.setHp v ⟨0, m⟩).Inv := hA
  have hloc0 : lookupA v (w.setHp v ⟨0, m⟩).spatial_table.locs =
      some ⟨c, some Layer.character⟩ := hloc
  have htile0 : lookupA v (w.setHp v ⟨0, m⟩).components.tile =
      some (Tile.npc k) := htile
  obtain ⟨w', hdie⟩ := character_die_ok hA0 hloc0 hval (Or.inr ⟨k, htile0⟩)
  obtain ⟨hA', hloc', hnpcconv, _, hhp', _, _, _, _, _⟩ :=
    die_inversion hA0 hloc0 hdie
  refine ⟨w', hkill.trans hdie, ?_, ?_, hnpcconv k htile0, hloc', hA'⟩
  · unfold World.is_living_character SpatialTable.layer_of
    rw [hloc']
    rfl
  · rw [hhp']
    exact lookupA_insertA_self v _ _

/-- world.rs has no loop for repeated attacks; `bumpN` iterates
`character_bump_attack` n times for stating the kill-count property. -/
def World.bumpN (w : World) (v : Entity) : Nat → Option World
  | 0 => some w
  | n + 1 =>
    match w.character_bump_attack v with
    | none => none
    | some w1 => w1.bumpN v n

/-- Attacking a living NPC character with `cur` hit points leaves it alive (on
the Character layer) after fewer than `cur` attacks and dead exactly at the
`cur`-th attack, with hit points clamped at 0. -/
theorem kill_count :
    ∀ (cur : Nat) (w : World) (v : Entity) (c : Coord) (k : NpcType) (m : Nat),
    w.Inv →
    ¬Coord.isValid c w.spatial_table.gridSize = false →
    lookupA v w.spatial_table.locs = some ⟨c, some Layer.character⟩ →
    lookupA v w.components.tile = some (Tile.npc k) →
    lookupA v w.components.hit_points = some ⟨cur, m⟩ →
    0 < cur →
    (∀ n, n < cur → ∃ wn, w.bumpN v n = some wn ∧
      wn.is_living_character v = true) ∧
    (∃ wm, w.bumpN v cur = some wm ∧ wm.is_living_character v = false ∧
      lookupA v wm.components.hit_points = some ⟨0, m⟩ ∧
      lookupA v wm.components.tile = some (Tile.npcCorpse k)) := by
  intro cur
  induction cur with
  | zero =>
    intro w v c k m _ _ _ _ _ h0
    exact absurd h0 (by omega)
  | succ s ih =>
    intro w v c k m hA hval hloc htile hhp _
    have hliving : w.is_living_character v = true := by
      unfold World.is_living_character SpatialTable.layer_of
      rw [hloc]
      rfl
    cases Nat.eq_zero_or_pos s with
    | inl hs0 =>
      subst hs0
      constructor
      · intro n hn
        have hn0 : n = 0 := by omega
        subst hn0
        exact ⟨w, rfl, hliving⟩
      · obtain ⟨w', hb, hdead, hhp', htile', _, _⟩ :=
          bump_attack_kills hA hval hloc htile hhp (by omega)
        refine ⟨w', ?_, hdead, hhp', htile'⟩
        show w.bumpN v 1 = some w'
        unfold World.bumpN
        rw [hb]
        rfl
    | inr hs =>
      have hb : w.character_bump_attack v = some (w.setHp v ⟨s, m⟩) := by
        have := bump_attack_decrement hhp (show 1 < (⟨s + 1, m⟩ : HitPoints).current
          by dsimp; omega)
        simpa using this
      have hhp1 : lookupA v (w.setHp v ⟨s, m⟩).components.hit_points =
          some ⟨s, m⟩ := lookupA_insertA_self v _ _
      obtain ⟨ihAlive, ihDead⟩ :=
        ih (w.setHp v ⟨s, m⟩) v c k m hA hval hloc htile hhp1 hs
      constructor
      · intro n hn
        cases n with
        | zero => exact ⟨w, rfl, hliving⟩
        | succ j =>
          obtain ⟨wn, hwn, hlive⟩ := ihAlive j (by omega)
          refine ⟨wn, ?_, hlive⟩
          show w.bumpN v (j + 1) = some wn
          unfold World.bumpN
          rw [hb]
          exact hwn
      · obtain ⟨wm, hwm, hdead, hhpm, htilem⟩ := ihDead
        refine ⟨wm, ?_, hdead, hhpm, htilem⟩
        show w.bumpN v (s + 1) = some wm
        unfold World.bumpN
        rw [hb]
        exact hwm

theorem spawn_npc_hp {w w' : World} {c : Coord} {k : NpcType} {e : Entity}
    (h : w.spawn_npc c k = some (w', e)) :
    lookupA e w'.components.hit_points = some (npcHitPoints k) := by
  unfold World.spawn_npc at h
  cases hu : w.spatial_table.update w.entity_allocator.alloc.1
      ⟨c, some Layer.character⟩ with
  | ok t =>
    rw [hu] at h
    cases h
    exact lookupA_insertA_self _ _ _
  | error err => rw [hu] at h; exact absurd h (by simp)

/-- C3: each bump attack reduces the victim's current hit points by exactly 1,
saturating at 0, and triggers death exactly when the new value is 0; an Orc
spawns with current = max = 2 and a Troll with current = max = 6, and an NPC
character with full hit points m is still alive after any n < m attacks and
dead after exactly m attacks. -/
theorem bump_damage_and_kill_counts :
    (∀ (w w' : World) (c : Coord) (e : Entity),
      w.spawn_npc c NpcType.orc = some (w', e) →
      lookupA e w'.components.hit_points = some ⟨2, 2⟩) ∧
    (∀ (w w' : World) (c : Coord) (e : Entity),
      w.spawn_npc c NpcType.troll = some (w', e) →
      lookupA e w'.components.hit_points = some ⟨6, 6⟩) ∧
    (∀ (w : World) (v : Entity) (hp : HitPoints),
      lookupA v w.components.hit_points = some hp →
      (1 < hp.current →
        w.character_bump_attack v = some (w.setHp v ⟨hp.current - 1, hp.max⟩)) ∧
      (hp.current ≤ 1 →
        w.character_bump_attack v = (w.setHp v ⟨0, hp.max⟩).character_die v)) ∧
    (∀ (w : World) (v : Entity) (c : Coord) (k : NpcType) (m : Nat),
      w.Inv →
      Coord.isValid c w.spatial_table.gridSize = true →
      lookupA v w.spatial_table.locs = some ⟨c, some Layer.character⟩ →
      lookupA v w.components.tile = some (Tile.npc k) →
      lookupA v w.components.hit_points = some ⟨m, m⟩ →
      0 < m →
      (∀ n, n < m → ∃ wn, w.bumpN v n = some wn ∧
        wn.is_living_character v = true) ∧
      (∃ wm, w.bumpN v m = some wm ∧ wm.is_living_character v = false ∧
        lookupA v wm.components.hit_points = some ⟨0, m⟩ ∧
        lookupA v wm.components.tile = some (Tile.npcCorpse k))) := by
  refine ⟨?_, ?_, ?_, ?_⟩
  · intro w w' c e h
    exact spawn_npc_hp h
  · intro w w' c e h
    exact spawn_npc_hp h
  · intro w v hp hhp
    exact ⟨fun h1 => bump_attack_decrement hhp h1,
      fun h1 => bump_attack_kill_eq hhp h1⟩
  · intro w v c k m hA hval hloc htile hhp hm
    exact kill_count m w v c k m hA (by simp [hval]) hloc htile hhp hm

/-- A concrete 1x1 world holding a freshly spawned orc, for witnesses. -/
def wOrc : World :=
  match (World.new ⟨1, 1⟩).spawn_npc ⟨0, 0⟩ NpcType.orc with
  | some p => p.1
  | none => World.new ⟨1, 1⟩

def vOrc : Entity := ⟨0, 0⟩

theorem wOrc_spawn :
    (World.new ⟨1, 1⟩).spawn_npc ⟨0, 0⟩ NpcType.orc = some (wOrc, vOrc) := rfl

theorem wOrc_inv : wOrc.Inv := inv_spawn_npc (inv_new ⟨1, 1⟩) wOrc_spawn

theorem bump_damage_and_kill_counts_witness :
    wOrc.Inv ∧
    ((∀ n, n < 2 → ∃ wn, wOrc.bumpN vOrc n = some wn ∧
        wn.is_living_character vOrc = true) ∧
     (∃ wm, wOrc.bumpN vOrc 2 = some wm ∧ wm.is_living_character vOrc = false ∧
        lookupA vOrc wm.components.hit_points = some ⟨0, 2⟩ ∧
        lookupA vOrc wm.components.tile = some (Tile.npcCorpse NpcType.orc))) :=
  ⟨wOrc_inv,
   bump_damage_and_kill_counts.2.2.2 wOrc vOrc ⟨0, 0⟩ NpcType.orc 2 wOrc_inv
     rfl rfl rfl rfl (by decide)⟩

theorem add_dir_ne (c : Coord) (d : CardinalDirection) : c.add d.coord ≠ c := by
  cases d with
  | north =>
    intro h
    have hy := congrArg Coord.y h
    dsimp [Coord.add, CardinalDirection.coord] at hy
    omega
  | east =>
    intro h
    have hx := congrArg Coord.x h
    dsimp [Coord.add, CardinalDirection.coord] at hx
    omega
  | south =>
    intro h
    have hy := congrArg Coord.y h
    dsimp [Coord.add, CardinalDirection.coord] at hy
    omega
  | west =>
    intro h
    have hx := congrArg Coord.x h
    dsimp [Coord.add, CardinalDirection.coord] at hx
    omega

theorem layers_at_checked_of_valid {t : SpatialTable} {c : Coord}
    (hval : c.isValid t.gridSize = true) :
    t.layers_at_checked c = t.layersOf c := by
  unfold SpatialTable.layers_at_checked SpatialTable.layers_at
  rw [if_pos hval]
  rfl

/-- A bump attack never changes the spatial placement of any entity other than
the victim and a corpse replaced at the victim's cell. -/
theorem bump_locs_frame {w w' : World} {v : Entity} {cv : Coord}
    (hA : w.Inv)
    (hlocv : lookupA v w.spatial_table.locs = some ⟨cv, some Layer.character⟩)
    (h : w.character_bump_attack v = some w')
    (x : Entity) (hx : x ≠ v)
    (hxo : lookupA (cv, Layer.corpse) w.spatial_table.cells ≠ some x) :
    lookupA x w'.spatial_table.locs = lookupA x w.spatial_table.locs := by
  unfold World.character_bump_attack at h
  cases hhp : lookupA v w.components.hit_points with
  | none => rw [hhp] at h; cases h; rfl
  | some hp =>
    rw [hhp] at h
    dsimp at h
    split at h
    · have hA0 : (w.setHp v ⟨hp.current - 1, hp.max⟩).Inv := hA
      have hloc0 : lookupA v
          (w.setHp v ⟨hp.current - 1, hp.max⟩).spatial_table.locs =
          some ⟨cv, some Layer.character⟩ := hlocv
      obtain ⟨_, _, _, _, _, _, _, _, _, hframe⟩ := die_inversion hA0 hloc0 h
      exact (hframe x hx hxo).1
    · cases h; rfl

/-- C4: when the target cell's Character layer is occupied, the mover never
relocates; the collision resolves as a bump attack on the occupant when the
two differ in NPC-vs-player allegiance (presence of the npc_type component),
and as a rejected move with no state change when they share allegiance. -/
theorem bump_collision_resolution (w : World) (ch dc : Entity)
    (d : CardinalDirection) (c : Coord)
    (hA : w.Inv)
    (hco : w.spatial_table.coord_of ch = some c)
    (hval : (c.add d.coord).isValid w.spatial_table.grid_size = true)
    (hdc : lookupA (c.add d.coord, Layer.character) w.spatial_table.cells = some dc) :
    dc ≠ ch ∧
    ((lookupA ch w.components.npc_type).isSome ≠
        (lookupA dc w.components.npc_type).isSome →
      w.maybe_move_character ch d = w.character_bump_attack dc) ∧
    ((lookupA ch w.components.npc_type).isSome =
        (lookupA dc w.components.npc_type).isSome →
      w.maybe_move_character ch d = some w) ∧
    (∀ w', w.maybe_move_character ch d = some w' →
      lookupA ch w'.spatial_table.locs = lookupA ch w.spatial_table.locs) := by
  have hlocdc : lookupA dc w.spatial_table.locs =
      some ⟨c.add d.coord, some Layer.character⟩ :=
    (hA (c.add d.coord) Layer.character dc).mp hdc
  obtain ⟨loc, hloc, hlc⟩ : ∃ loc, lookupA ch w.spatial_table.locs = some loc ∧
      loc.coord = c := by
    unfold SpatialTable.coord_of at hco
    cases hl : lookupA ch w.spatial_table.locs with
    | none => rw [hl] at hco; cases hco
    | some loc =>
      rw [hl] at hco
      exact ⟨loc, rfl, by cases hco; rfl⟩
  have hdcch : dc ≠ ch := by
    intro heq
    subst heq
    rw [hloc] at hlocdc
    cases hlocdc
    exact add_dir_ne c d hlc
  have hchar : (w.spatial_table.layers_at_checked (c.add d.coord)).character =
      some dc := by
    rw [layers_at_checked_of_valid hval]
    exact hdc
  have hmmc : w.maybe_move_character ch d =
      (if (lookupA ch w.components.npc_type).isSome ≠
          (lookupA dc w.components.npc_type).isSome then
        w.character_bump_attack dc
      else some w) := by
    unfold World.maybe_move_character
    rw [hco]
    dsimp
    rw [if_pos hval, hchar]
  have hnocorpse : lookupA (c.add d.coord, Layer.corpse)
      w.spatial_table.cells ≠ some ch := by
    intro hcc
    have := (hA (c.add d.coord) Layer.corpse ch).mp hcc
    rw [hloc] at this
    cases this
    exact add_dir_ne c d hlc
  refine ⟨hdcch, ?_, ?_, ?_⟩
  · intro hne
    rw [hmmc, if_pos hne]
  · intro heq
    rw [hmmc, if_neg (by intro hne; exact hne heq)]
  · intro w' h'
    rw [hmmc] at h'
    split at h'
    · exact bump_locs_frame hA hlocdc h' ch (fun hh => hdcch hh.symm) hnocorpse
    · cases h'
      rfl

def mEnt : Entity := ⟨0, 0⟩

def dEnt : Entity := ⟨1, 0⟩

/-- A 2x1 world: player at the origin. -/
def wB1 : World :=
  match (World.new ⟨2, 1⟩).spawn_player ⟨0, 0⟩ with
  | some p => p.1
  | none => World.new ⟨2, 1⟩

/-- `wB1` plus an orc at (1,0). -/
def wB2 : World :=
  match wB1.spawn_npc ⟨1, 0⟩ NpcType.orc with
  | some p => p.1
  | none => wB1

/-- `wB2` plus a wall feature at (1,0): the cell east of the player holds both
an orc (Character layer) and a wall (Feature layer). -/
def wC5 : World :=
  match wB2.spawn_wall ⟨1, 0⟩ with
  | some w => w
  | none => wB2

/-- `wB1` plus a wall feature at (1,0) and no character there. -/
def wF : World :=
  match wB1.spawn_wall ⟨1, 0⟩ with
  | some w => w
  | none => wB1

theorem wB1_spawn : (World.new ⟨2, 1⟩).spawn_player ⟨0, 0⟩ = some (wB1, mEnt) := rfl

theorem wB2_spawn : wB1.spawn_npc ⟨1, 0⟩ NpcType.orc = some (wB2, dEnt) := rfl

theorem wC5_spawn : wB2.spawn_wall ⟨1, 0⟩ = some wC5 := rfl

theorem wC5_inv : wC5.Inv :=
  inv_spawn_wall (inv_spawn_npc (inv_spawn_player (inv_new ⟨2, 1⟩) wB1_spawn)
    wB2_spawn) wC5_spawn

theorem bump_collision_resolution_witness :
    wC5.Inv ∧
    wC5.spatial_table.coord_of mEnt = some ⟨0, 0⟩ ∧
    ((⟨0, 0⟩ : Coord).add CardinalDirection.east.coord).isValid
      wC5.spatial_table.grid_size = true ∧
    lookupA ((⟨0, 0⟩ : Coord).add CardinalDirection.east.coord, Layer.character)
      wC5.spatial_table.cells = some dEnt ∧
    dEnt ≠ mEnt :=
  ⟨wC5_inv, rfl, rfl, rfl,
   (bump_collision_resolution wC5 mEnt dEnt CardinalDirection.east ⟨0, 0⟩
     wC5_inv rfl rfl rfl).1⟩

/-- C5 (amended): a move whose target coordinate is out of grid bounds, or
whose target cell's Feature layer is occupied while its Character layer is
empty, is a silent no-op: the world is returned unchanged and no error is
signaled. -/
theorem move_rejected_out_of_bounds_or_feature (w : World) (ch : Entity)
    (d : CardinalDirection) (c : Coord)
    (hco : w.spatial_table.coord_of ch = some c) :
    ((c.add d.coord).isValid w.spatial_table.grid_size = false →
      w.maybe_move_character ch d = some w) ∧
    ((c.add d.coord).isValid w.spatial_table.grid_size = true →
      lookupA (c.add d.coord, Layer.character) w.spatial_table.cells = none →
      (lookupA (c.add d.coord, Layer.feature) w.spatial_table.cells).isSome = true →
      w.maybe_move_character ch d = some w) := by
  constructor
  · intro hval
    unfold World.maybe_move_character
    rw [hco]
    dsimp
    rw [if_neg (by rw [hval]; exact fun hh => Bool.noConfusion hh)]
  · intro hval hchar hfeat
    unfold World.maybe_move_character
    rw [hco]
    dsimp
    rw [if_pos hval]
    rw [show (w.spatial_table.layers_at_checked (c.add d.coord)).character = none by
      rw [layers_at_checked_of_valid hval]; exact hchar]
    dsimp
    rw [if_neg (by
      rw [layers_at_checked_of_valid hval]
      show ¬lookupA (c.add d.coord, Layer.feature) w.spatial_table.cells = none
      intro hn
      rw [hn] at hfeat
      cases hfeat)]

theorem wF_spawn : wB1.spawn_wall ⟨1, 0⟩ = some wF := rfl

theorem move_rejected_out_of_bounds_or_feature_witness :
    wF.spatial_table.coord_of mEnt = some ⟨0, 0⟩ ∧
    wF.maybe_move_character mEnt CardinalDirection.west = some wF ∧
    wF.maybe_move_character mEnt CardinalDirection.east = some wF :=
  ⟨rfl,
   (move_rejected_out_of_bounds_or_feature wF mEnt CardinalDirection.west
     ⟨0, 0⟩ rfl).1 rfl,
   (move_rejected_out_of_bounds_or_feature wF mEnt CardinalDirection.east
     ⟨0, 0⟩ rfl).2 rfl rfl rfl⟩

/-- C5 counterexample: in `wC5` the cell east of the player has its Feature
layer occupied by a wall, yet moving east is not a no-op — the Character-layer
occupant is checked first, so the move resolves as a bump attack that changes
the orc's hit points. -/
theorem feature_blocked_move_changes_world :
    (lookupA (⟨1, 0⟩, Layer.feature) wC5.spatial_table.cells).isSome = true ∧
    wC5.spatial_table.coord_of mEnt = some ⟨0, 0⟩ ∧
    wC5.maybe_move_character mEnt CardinalDirection.east =
      some (wC5.setHp dEnt ⟨1, 2⟩) ∧
    wC5.setHp dEnt ⟨1, 2⟩ ≠ wC5 := by decide

/-- Population invariant: the free list is empty (populate never frees), and
entities at or above the allocator's high-water mark carry no state. -/
def World.PopInv (w : World) : Prop :=
  w.entity_allocator.freeList = [] ∧
  ∀ x : Entity, w.entity_allocator.next ≤ x.index →
    lookupA x w.spatial_table.locs = none ∧
    lookupA x w.components.tile = none ∧
    lookupA x w.components.hit_points = none ∧
    lookupA x w.components.npc_type = none

/-- All state of entities below index bound `n` is identical in `w` and `w'`. -/
def EStab (w w' : World) (n : Nat) : Prop :=
  ∀ x : Entity, x.index < n →
    lookupA x w'.spatial_table.locs = lookupA x w.spatial_table.locs ∧
    lookupA x w'.components.tile = lookupA x w.components.tile ∧
    lookupA x w'.components.hit_points = lookupA x w.components.hit_points ∧
    lookupA x w'.components.npc_type = lookupA x w.components.npc_type

theorem estab_trans {w w1 w2 : World} {n m : Nat} (h1 : EStab w w1 n)
    (h2 : EStab w1 w2 m) (hnm : n ≤ m) : EStab w w2 n := by
  intro x hx
  obtain ⟨a1, b1, c1, d1⟩ := h1 x hx
  obtain ⟨a2, b2, c2, d2⟩ := h2 x (by omega)
  exact ⟨a2.trans a1, b2.trans b1, c2.trans c1, d2.trans d1⟩

theorem update_ok_locs {t t' : SpatialTable} {e : Entity} {loc : Location}
    (h : t.update e loc = Except.ok t') : t'.locs = insertA e loc t.locs := by
  unfold SpatialTable.update at h
  split at h
  · exact absurd h (by simp)
  · obtain ⟨lc, ll⟩ := loc
    dsimp at h
    cases ll with
    | some l =>
      dsimp at h
      cases hcell : lookupA (lc, l) t.cells with
      | some occ =>
        rw [hcell] at h
        dsimp at h
        split at h
        · cases h; rfl
        · exact absurd h (by simp)
      | none =>
        rw [hcell] at h
        dsimp at h
        cases h
        rfl
    | none =>
      dsimp at h
      cases h
      rfl

theorem popinv_new (s : Size) : (World.new s).PopInv := by
  refine ⟨rfl, ?_⟩
  intro x _
  exact ⟨rfl, rfl, rfl, rfl⟩

theorem spawn_floor_ok {w w1 : World} {c : Coord} (hP : w.PopInv)
    (h : w.spawn_floor c = some w1) :
    w1.PopInv ∧ w1.entity_allocator.next = w.entity_allocator.next + 1 ∧
    EStab w w1 w.entity_allocator.next ∧
    ∃ e : Entity, e.index = w.entity_allocator.next ∧
      lookupA e w1.spatial_table.locs = some ⟨c, some Layer.floor⟩ ∧
      lookupA e w1.components.tile = some Tile.floor := by
  have hAlloc : w.entity_allocator.alloc =
      (⟨w.entity_allocator.next,
        w.entity_allocator.genOf w.entity_allocator.next⟩,
       ⟨w.entity_allocator.next + 1, w.entity_allocator.gens, []⟩) := by
    unfold EntityAllocator.alloc
    rw [hP.1]
  unfold World.spawn_floor at h
  rw [hAlloc] at h
  dsimp at h
  cases hu : w.spatial_table.update
      ⟨w.entity_allocator.next, w.entity_allocator.genOf w.entity_allocator.next⟩
      ⟨c, some Layer.floor⟩ with
  | error err => rw [hu] at h; exact absurd h (by simp)
  | ok t =>
    rw [hu] at h
    cases h
    have hlocs := update_ok_locs hu
    refine ⟨⟨rfl, ?_⟩, rfl, ?_, ?_⟩
    · intro x hx
      have hxe : x ≠ ⟨w.entity_allocator.next,
          w.entity_allocator.genOf w.entity_allocator.next⟩ := by
        intro he
        rw [he] at hx
        dsimp at hx
        omega
      obtain ⟨ha, hb, hc, hd⟩ := hP.2 x (by dsimp at hx; omega)
      refine ⟨?_, ?_, hc, hd⟩
      · show lookupA x t.locs = none
        rw [hlocs, lookupA_insertA_ne hxe]
        exact ha
      · show lookupA x (insertA _ Tile.floor w.components.tile) = none
        rw [lookupA_insertA_ne hxe]
        exact hb
    · intro x hx
      have hxe : x ≠ ⟨w.entity_allocator.next,
          w.entity_allocator.genOf w.entity_allocator.next⟩ := by
        intro he
        rw [he] at hx
        dsimp at hx
        omega
      refine ⟨?_, ?_, rfl, rfl⟩
      · show lookupA x t.locs = _
        rw [hlocs, lookupA_insertA_ne hxe]
      · show lookupA x (insertA _ Tile.floor w.components.tile) = _
        rw [lookupA_insertA_ne hxe]
    · refine ⟨⟨w.entity_allocator.next,
        w.entity_allocator.genOf w.entity_allocator.next⟩, rfl, ?_, ?_⟩
      · show lookupA _ t.locs = _
        rw [hlocs]
        exact lookupA_insertA_self _ _ _
      · exact lookupA_insertA_self _ _ _

theorem spawn_wall_ok {w w1 : World} {c : Coord} (hP : w.PopInv)
    (h : w.spawn_wall c = some w1) :
    w1.PopInv ∧ w1.entity_allocator.next = w.entity_allocator.next + 1 ∧
    EStab w w1 w.entity_allocator.next ∧
    ∃ e : Entity, e.index = w.entity_allocator.next ∧
      lookupA e w1.spatial_table.locs = some ⟨c, some Layer.feature⟩ ∧
      lookupA e w1.components.tile = some Tile.wall := by
  have hAlloc : w.entity_allocator.alloc =
      (⟨w.entity_allocator.next,
        w.entity_allocator.genOf w.entity_allocator.next⟩,
       ⟨w.entity_allocator.next + 1, w.entity_allocator.gens, []⟩) := by
    unfold EntityAllocator.alloc
    rw [hP.1]
  unfold World.spawn_wall at h
  rw [hAlloc] at h
  dsimp at h
  cases hu : w.spatial_table.update
      ⟨w.entity_allocator.next, w.entity_allocator.genOf w.entity_allocator.next⟩
      ⟨c, some Layer.feature⟩ with
  | error err => rw [hu] at h; exact absurd h (by simp)
  | ok t =>
    rw [hu] at h
    cases h
    have hlocs := update_ok_locs hu
    refine ⟨⟨rfl, ?_⟩, rfl, ?_, ?_⟩
    · intro x hx
      have hxe : x ≠ ⟨w.entity_allocator.next,
          w.entity_allocator.genOf w.entity_allocator.next⟩ := by
        intro he
        rw [he] at hx
        dsimp at hx
        omega
      obtain ⟨ha, hb, hc, hd⟩ := hP.2 x (by dsimp at hx; omega)
      refine ⟨?_, ?_, hc, hd⟩
      · show lookupA x t.locs = none
        rw [hlocs, lookupA_insertA_ne hxe]
        exact ha
      · show lookupA x (insertA _ Tile.wall w.components.tile) = none
        rw [lookupA_insertA_ne hxe]
        exact hb
    · intro x hx
      have hxe : x ≠ ⟨w.entity_allocator.next,
          w.entity_allocator.genOf w.entity_allocator.next⟩ := by
        intro he
        rw [he] at hx
        dsimp at hx
        omega
      refine ⟨?_, ?_, rfl, rfl⟩
      · show lookupA x t.locs = _
        rw [hlocs, lookupA_insertA_ne hxe]
      · show lookupA x (insertA _ Tile.wall w.components.tile) = _
        rw [lookupA_insertA_ne hxe]
    · refine ⟨⟨w.entity_allocator.next,
        w.entity_allocator.genOf w.entity_allocator.next⟩, rfl, ?_, ?_⟩
      · show lookupA _ t.locs = _
        rw [hlocs]
        exact lookupA_insertA_self _ _ _
      · exact lookupA_insertA_self _ _ _

theorem spawn_npc_ok {w w1 : World} {c : Coord} {k : NpcType} {e : Entity}
    (hP : w.PopInv) (h : w.spawn_npc c k = some (w1, e)) :
    w1.PopInv ∧ w1.entity_allocator.next = w.entity_allocator.next + 1 ∧
    EStab w w1 w.entity_allocator.next ∧
    e.index = w.entity_allocator.next ∧
    lookupA e w1.spatial_table.locs = some ⟨c, some Layer.character⟩ ∧
    lookupA e w1.components.tile = some (Tile.npc k) ∧
    lookupA e w1.components.npc_type = some k ∧
    lookupA e w1.components.hit_points = some (npcHitPoints k) := by
  have hAlloc : w.entity_allocator.alloc =
      (⟨w.entity_allocator.next,
        w.entity_allocator.genOf w.entity_allocator.next⟩,
       ⟨w.entity_allocator.next + 1, w.entity_allocator.gens, []⟩) := by
    unfold EntityAllocator.alloc
    rw [hP.1]
  unfold World.spawn_npc at h
  rw [hAlloc] at h
  dsimp at h
  cases hu : w.spatial_table.update
      ⟨w.entity_allocator.next, w.entity_allocator.genOf w.entity_allocator.next⟩
      ⟨c, some Layer.character⟩ with
  | error err => rw [hu] at h; exact absurd h (by simp)
  | ok t =>
    rw [hu] at h
    cases h
    have hlocs := update_ok_locs hu
    refine ⟨⟨rfl, ?_⟩, rfl, ?_, rfl, ?_, ?_, ?_, ?_⟩
    · intro x hx
      have hxe : x ≠ ⟨w.entity_allocator.next,
          w.entity_allocator.genOf w.entity_allocator.next⟩ := by
        intro he
        rw [he] at hx
        dsimp at hx
        omega
      obtain ⟨ha, hb, hc, hd⟩ := hP.2 x (by dsimp at hx; omega)
      refine ⟨?_, ?_, ?_, ?_⟩
      · show lookupA x t.locs = none
        rw [hlocs, lookupA_insertA_ne hxe]
        exact ha
      · show lookupA x (insertA _ (Tile.npc k) w.components.tile) = none
        rw [lookupA_insertA_ne hxe]
        exact hb
      · show lookupA x (insertA _ (npcHitPoints k) w.components.hit_points) = none
        rw [lookupA_insertA_ne hxe]
        exact hc
      · show lookupA x (insertA _ k w.components.npc_type) = none
        rw [lookupA_insertA_ne hxe]
        exact hd
    · intro x hx
      have hxe : x ≠ ⟨w.entity_allocator.next,
          w.entity_allocator.genOf w.entity_allocator.next⟩ := by
        intro he
        rw [he] at hx
        dsimp at hx
        omega
      refine ⟨?_, ?_, ?_, ?_⟩
      · show lookupA x t.locs = _
        rw [hlocs, lookupA_insertA_ne hxe]
      · show lookupA x (insertA _ (Tile.npc k) w.components.tile) = _
        rw [lookupA_insertA_ne hxe]
      · show lookupA x (insertA _ (npcHitPoints k) w.components.hit_points) = _
        rw [lookupA_insertA_ne hxe]
      · show lookupA x (insertA _ k w.components.npc_type) = _
        rw [lookupA_insertA_ne hxe]
    · show lookupA _ t.locs = _
      rw [hlocs]
      exact lookupA_insertA_self _ _ _
    · exact lookupA_insertA_self _ _ _
    · exact lookupA_insertA_self _ _ _
    · exact lookupA_insertA_self _ _ _

theorem spawn_player_ok {w w1 : World} {c : Coord} {e : Entity}
    (hP : w.PopInv) (h : w.spawn_player c = some (w1, e)) :
    w1.PopInv ∧ w1.entity_allocator.next = w.entity_allocator.next + 1 ∧
    EStab w w1 w.entity_allocator.next ∧
    e.index = w.entity_allocator.next ∧
    lookupA e w1.spatial_table.locs = some ⟨c, some Layer.character⟩ ∧
    lookupA e w1.components.tile = some Tile.player ∧
    lookupA e w1.components.hit_points = some (HitPoints.new_full 20) := by
  have hAlloc : w.entity_allocator.alloc =
      (⟨w.entity_allocator.next,
        w.entity_allocator.genOf w.entity_allocator.next⟩,
       ⟨w.entity_allocator.next + 1, w.entity_allocator.gens, []⟩) := by
    unfold EntityAllocator.alloc
    rw [hP.1]
  unfold World.spawn_player at h
  rw [hAlloc] at h
  dsimp at h
  cases hu : w.spatial_table.update
      ⟨w.entity_allocator.next, w.entity_allocator.genOf w.entity_allocator.next⟩
      ⟨c, some Layer.character⟩ with
  | error err => rw [hu] at h; exact absurd h (by simp)
  | ok t =>
    rw [hu] at h
    cases h
    have hlocs := update_ok_locs hu
    refine ⟨⟨rfl, ?_⟩, rfl, ?_, rfl, ?_, ?_, ?_⟩
    · intro x hx
      have hxe : x ≠ ⟨w.entity_allocator.next,
          w.entity_allocator.genOf w.entity_allocator.next⟩ := by
        intro he
        rw [he] at hx
        dsimp at hx
        omega
      obtain ⟨ha, hb, hc, hd⟩ := hP.2 x (by dsimp at hx; omega)
      refine ⟨?_, ?_, ?_, hd⟩
      · show lookupA x t.locs = none
        rw [hlocs, lookupA_insertA_ne hxe]
        exact ha
      · show lookupA x (insertA _ Tile.player w.components.tile) = none
        rw [lookupA_insertA_ne hxe]
        exact hb
      · show lookupA x (insertA _ (HitPoints.new_full 20) w.components.hit_points) = none
        rw [lookupA_insertA_ne hxe]
        exact hc
    · intro x hx
      have hxe : x ≠ ⟨w.entity_allocator.next,
          w.entity_allocator.genOf w.entity_allocator.next⟩ := by
        intro he
        rw [he] at hx
        dsimp at hx
        omega
      refine ⟨?_, ?_, ?_, rfl⟩
      · show lookupA x t.locs = _
        rw [hlocs, lookupA_insertA_ne hxe]
      · show lookupA x (insertA _ Tile.player w.components.tile) = _
        rw [lookupA_insertA_ne hxe]
      · show lookupA x (insertA _ (HitPoints.new_full 20) w.components.hit_points) = _
        rw [lookupA_insertA_ne hxe]
    · show lookupA _ t.locs = _
      rw [hlocs]
      exact lookupA_insertA_self _ _ _
    · exact lookupA_insertA_self _ _ _
    · exact lookupA_insertA_self _ _ _

/-- The entities a population step must have created for one terrain tile
(stated on the entity-to-location index; converted to slot facts via the
agreement invariant). -/
def TileFacts (w : World) (ai : List (Entity × Agent))
    (ct : Coord × TerrainTile) : Prop :=
  (∃ e : Entity, e.index < w.entity_allocator.next ∧
    lookupA e w.spatial_table.locs = some ⟨ct.1, some Layer.floor⟩ ∧
    lookupA e w.components.tile = some Tile.floor) ∧
  (ct.2 = TerrainTile.wall → ∃ e : Entity, e.index < w.entity_allocator.next ∧
    lookupA e w.spatial_table.locs = some ⟨ct.1, some Layer.feature⟩ ∧
    lookupA e w.components.tile = some Tile.wall) ∧
  (∀ k, ct.2 = TerrainTile.npc k →
    ∃ e : Entity, e.index < w.entity_allocator.next ∧
      lookupA e w.spatial_table.locs = some ⟨ct.1, some Layer.character⟩ ∧
      lookupA e w.components.tile = some (Tile.npc k) ∧
      lookupA e w.components.npc_type = some k ∧
      lookupA e w.components.hit_points = some (npcHitPoints k) ∧
      (lookupA e ai).isSome = true) ∧
  (ct.2 = TerrainTile.player → ∃ e : Entity, e.index < w.entity_allocator.next ∧
    lookupA e w.spatial_table.locs = some ⟨ct.1, some Layer.character⟩ ∧
    lookupA e w.components.tile = some Tile.player)

theorem tileFacts_mono {w1 w2 : World} {ai1 ai2 : List (Entity × Agent)}
    {ct : Coord × TerrainTile} (hf : TileFacts w1 ai1 ct)
    (hst : EStab w1 w2 w1.entity_allocator.next)
    (hmono : w1.entity_allocator.next ≤ w2.entity_allocator.next)
    (hai : ∀ x : Entity, x.index < w1.entity_allocator.next →
      lookupA x ai2 = lookupA x ai1) :
    TileFacts w2 ai2 ct := by
  obtain ⟨hfl, hwl, hnp, hpl⟩ := hf
  refine ⟨?_, ?_, ?_, ?_⟩
  · obtain ⟨e, hb, h1, h2⟩ := hfl
    obtain ⟨s1, s2, _, _⟩ := hst e hb
    exact ⟨e, by omega, s1.trans h1, s2.trans h2⟩
  · intro hw
    obtain ⟨e, hb, h1, h2⟩ := hwl hw
    obtain ⟨s1, s2, _, _⟩ := hst e hb
    exact ⟨e, by omega, s1.trans h1, s2.trans h2⟩
  · intro k hk
    obtain ⟨e, hb, h1, h2, h3, h4, h5⟩ := hnp k hk
    obtain ⟨s1, s2, s3, s4⟩ := hst e hb
    refine ⟨e, by omega, s1.trans h1, s2.trans h2, s4.trans h3, s3.trans h4, ?_⟩
    rw [hai e hb]
    exact h5
  · intro hp
    obtain ⟨e, hb, h1, h2⟩ := hpl hp
    obtain ⟨s1, s2, _, _⟩ := hst e hb
    exact ⟨e, by omega, s1.trans h1, s2.trans h2⟩

/-- The player-entity bookkeeping carried through population. -/
def PlayerOk (w : World) (pe : Option Entity) : Prop :=
  ∀ p : Entity, pe = some p → p.index < w.entity_allocator.next ∧
    lookupA p w.components.tile = some Tile.player

theorem playerOk_mono {w1 w2 : World} {pe : Option Entity}
    (hp : PlayerOk w1 pe) (hst : EStab w1 w2 w1.entity_allocator.next)
    (hmono : w1.entity_allocator.next ≤ w2.entity_allocator.next) :
    PlayerOk w2 pe := by
  intro p heq
  obtain ⟨hb, ht⟩ := hp p heq
  obtain ⟨_, s2, _, _⟩ := hst p hb
  exact ⟨by omega, s2.trans ht⟩

theorem populateStep_ok {w w1 : World} {ai ai1 : List (Entity × Agent)}
    {pe pe1 : Option Entity} {ct : Coord × TerrainTile} (hP : w.PopInv)
    (h : w.populateStep ai pe ct = some (w1, ai1, pe1)) :
    w1.PopInv ∧ w.entity_allocator.next ≤ w1.entity_allocator.next ∧
    EStab w w1 w.entity_allocator.next ∧
    (∀ x : Entity, x.index < w.entity_allocator.next →
      lookupA x ai1 = lookupA x ai) ∧
    (PlayerOk w pe → PlayerOk w1 pe1) ∧
    TileFacts w1 ai1 ct := by
  obtain ⟨cc, tt⟩ := ct
  unfold World.populateStep at h
  cases tt with
  | floor =>
    dsimp only at h
    cases hf : w.spawn_floor cc with
    | none => rw [hf] at h; exact absurd h (by simp)
    | some wf =>
      rw [hf] at h
      cases h
      obtain ⟨hP1, hn1, hs1, e, he, hel, het⟩ := spawn_floor_ok hP hf
      refine ⟨hP1, by omega, hs1, fun x _ => rfl, ?_, ?_⟩
      · intro hpok
        exact playerOk_mono hpok hs1 (by omega)
      · refine ⟨⟨e, by omega, hel, het⟩, ?_, ?_, ?_⟩
        · intro hw; cases hw
        · intro k hk; cases hk
        · intro hp; cases hp
  | npc k =>
    dsimp only at h
    cases hn : w.spawn_npc cc k with
    | none => rw [hn] at h; exact absurd h (by simp)
    | some pr =>
      obtain ⟨wn, e⟩ := pr
      rw [hn] at h
      dsimp only at h
      cases hf : wn.spawn_floor cc with
      | none => rw [hf] at h; exact absurd h (by simp)
      | some wf =>
        rw [hf] at h
        cases h
        obtain ⟨hPn, hnn, hsn, hei, hnl, hnt, hnk, hnh⟩ := spawn_npc_ok hP hn
        obtain ⟨hPf, hnf, hsf, e2, he2, he2l, he2t⟩ := spawn_floor_ok hPn hf
        have hmono : w.entity_allocator.next ≤ wn.entity_allocator.next := by omega
        refine ⟨hPf, by omega, estab_trans hsn hsf hmono, ?_, ?_, ?_⟩
        · intro x hx
          have hxe : x ≠ e := by
            intro heq
            rw [heq] at hx
            omega
          exact lookupA_insertA_ne hxe _ _
        · intro hpok
          exact playerOk_mono (playerOk_mono hpok hsn hmono) hsf (by omega)
        · obtain ⟨sn1, sn2, sn3, sn4⟩ := hsf e (by omega)
          refine ⟨⟨e2, by omega, he2l, he2t⟩, ?_, ?_, ?_⟩
          · intro hw; cases hw
          · intro k' hk'
            cases hk'
            refine ⟨e, by omega, sn1.trans hnl, sn2.trans hnt, sn4.trans hnk,
              sn3.trans hnh, ?_⟩
            rw [lookupA_insertA_self]
            rfl
          · intro hp; cases hp
  | player =>
    dsimp only at h
    cases hf : w.spawn_floor cc with
    | none => rw [hf] at h; exact absurd h (by simp)
    | some wf =>
      rw [hf] at h
      dsimp only at h
      cases hpw : wf.spawn_player cc with
      | none => rw [hpw] at h; exact absurd h (by simp)
      | some pr =>
        obtain ⟨wp, e⟩ := pr
        rw [hpw] at h
        cases h
        obtain ⟨hPf, hnf, hsf, ef, hef, hefl, heft⟩ := spawn_floor_ok hP hf
        obtain ⟨hPp, hnp, hsp, hei, hpl, hpt, hph⟩ := spawn_player_ok hPf hpw
        have hmono : w.entity_allocator.next ≤ wf.entity_allocator.next := by omega
        refine ⟨hPp, by omega, estab_trans hsf hsp hmono, fun x _ => rfl, ?_, ?_⟩
        · intro _
          intro p heq
          cases heq
          exact ⟨by omega, hpt⟩
        · obtain ⟨sf1, sf2, _, _⟩ := hsp ef (by omega)
          refine ⟨⟨ef, by omega, sf1.trans hefl, sf2.trans heft⟩, ?_, ?_, ?_⟩
          · intro hw; cases hw
          · intro k' hk'; cases hk'
          · intro _
            exact ⟨e, by omega, hpl, hpt⟩
  | wall =>
    dsimp only at h
    cases hf : w.spawn_floor cc with
    | none => rw [hf] at h; exact absurd h (by simp)
    | some wf =>
      rw [hf] at h
      dsimp only at h
      cases hw : wf.spawn_wall cc with
      | none => rw [hw] at h; exact absurd h (by simp)
      | some ww =>
        rw [hw] at h
        cases h
        obtain ⟨hPf, hnf, hsf, ef, hef, hefl, heft⟩ := spawn_floor_ok hP hf
        obtain ⟨hPw, hnw, hsw, ew, hew, hewl, hewt⟩ := spawn_wall_ok hPf hw
        have hmono : w.entity_allocator.next ≤ wf.entity_allocator.next := by omega
        refine ⟨hPw, by omega, estab_trans hsf hsw hmono, fun x _ => rfl, ?_, ?_⟩
        · intro hpok
          exact playerOk_mono (playerOk_mono hpok hsf hmono) hsw (by omega)
        · obtain ⟨sf1, sf2, _, _⟩ := hsw ef (by omega)
          refine ⟨⟨ef, by omega, sf1.trans hefl, sf2.trans heft⟩, ?_, ?_, ?_⟩
          · intro _
            exact ⟨ew, by omega, hewl, hewt⟩
          · intro k' hk'; cases hk'
          · intro hp; cases hp

theorem populateAux_facts :
    ∀ (terrain : List (Coord × TerrainTile)) {w w1 : World}
      {ai ai1 : List (Entity × Agent)} {pe pe1 : Option Entity},
    w.PopInv →
    w.populateAux ai pe terrain = some (w1, ai1, pe1) →
    w1.PopInv ∧ w.entity_allocator.next ≤ w1.entity_allocator.next ∧
    EStab w w1 w.entity_allocator.next ∧
    (∀ x : Entity, x.index < w.entity_allocator.next →
      lookupA x ai1 = lookupA x ai) ∧
    (PlayerOk w pe → PlayerOk w1 pe1) ∧
    (∀ ct ∈ terrain, TileFacts w1 ai1 ct) := by
  intro terrain
  induction terrain with
  | nil =>
    intro w w1 ai ai1 pe pe1 hP h
    unfold World.populateAux at h
    cases h
    exact ⟨hP, le_refl _, fun x _ => ⟨rfl, rfl, rfl, rfl⟩, fun x _ => rfl,
      id, by simp⟩
  | cons ct rest ih =>
    intro w w1 ai ai1 pe pe1 hP h
    unfold World.populateAux at h
    cases hs : w.populateStep ai pe ct with
    | none => rw [hs] at h; exact absurd h (by simp)
    | some r =>
      obtain ⟨wm, aim, pem⟩ := r
      rw [hs] at h
      obtain ⟨hPm, hmono1, hst1, hai1, hpl1, htf1⟩ := populateStep_ok hP hs
      obtain ⟨hP1, hmono2, hst2, hai2, hpl2, htf2⟩ := ih hPm h
      refine ⟨hP1, by omega, estab_trans hst1 hst2 hmono1, ?_,
        fun hp => hpl2 (hpl1 hp), ?_⟩
      · intro x hx
        rw [hai2 x (by omega), hai1 x hx]
      · intro ct' hct'
        rcases List.mem_cons.mp hct' with hh | hh
        · subst hh
          exact tileFacts_mono htf1 hst2 hmono2 (fun x hx => hai2 x hx)
        · exact htf2 ct' hh

/-- C7: populating a fresh world spawns, for every enumerated terrain
coordinate, a Floor-layer entity with tile Floor (also under non-floor
terrain tiles); a Wall tile additionally spawns a Feature-layer entity with
tile Wall; an Npc tile additionally spawns a Character-layer entity with the
Npc tile, npc_type and hit_points components and an Agent entry; and the
Player tile additionally spawns a Character-layer entity with tile Player,
the returned player entity having tile Player. -/
theorem populate_spawns_layers (s : Size) (terrain : List (Coord × TerrainTile))
    (w' : World) (p : Populate)
    (h : (World.new s).populate terrain = some (w', p)) :
    (∀ ct ∈ terrain,
      (∃ e, lookupA (ct.1, Layer.floor) w'.spatial_table.cells = some e ∧
        lookupA e w'.components.tile = some Tile.floor) ∧
      (ct.2 = TerrainTile.wall →
        ∃ e, lookupA (ct.1, Layer.feature) w'.spatial_table.cells = some e ∧
          lookupA e w'.components.tile = some Tile.wall) ∧
      (∀ k, ct.2 = TerrainTile.npc k →
        ∃ e, lookupA (ct.1, Layer.character) w'.spatial_table.cells = some e ∧
          lookupA e w'.components.tile = some (Tile.npc k) ∧
          lookupA e w'.components.npc_type = some k ∧
          lookupA e w'.components.hit_points = some (npcHitPoints k) ∧
          (lookupA e p.ai_state).isSome = true) ∧
      (ct.2 = TerrainTile.player →
        ∃ e, lookupA (ct.1, Layer.character) w'.spatial_table.cells = some e ∧
          lookupA e w'.components.tile = some Tile.player)) ∧
    lookupA p.player_entity w'.components.tile = some Tile.player := by
  have hA' : w'.Inv := inv_populate (inv_new s) h
  unfold World.populate at h
  cases ha : (World.new s).populateAux [] none terrain with
  | none => rw [ha] at h; exact absurd h (by simp)
  | some r =>
    obtain ⟨w1, ai, pe⟩ := r
    rw [ha] at h
    cases pe with
    | none => exact absurd h (by simp)
    | some pv =>
      dsimp at h
      cases h
      obtain ⟨_, _, _, _, hpl, htf⟩ := populateAux_facts terrain (popinv_new s) ha
      have hplayer : PlayerOk w' (some pv) := by
        apply hpl
        intro p0 hp0
        cases hp0
      constructor
      · intro ct hct
        obtain ⟨hfl, hwl, hnp, hplt⟩ := htf ct hct
        refine ⟨?_, ?_, ?_, ?_⟩
        · obtain ⟨e, _, h1, h2⟩ := hfl
          exact ⟨e, (hA' ct.1 Layer.floor e).mpr h1, h2⟩
        · intro hw
          obtain ⟨e, _, h1, h2⟩ := hwl hw
          exact ⟨e, (hA' ct.1 Layer.feature e).mpr h1, h2⟩
        · intro k hk
          obtain ⟨e, _, h1, h2, h3, h4, h5⟩ := hnp k hk
          exact ⟨e, (hA' ct.1 Layer.character e).mpr h1, h2, h3, h4, h5⟩
        · intro hp
          obtain ⟨e, _, h1, h2⟩ := hplt hp
          exact ⟨e, (hA' ct.1 Layer.character e).mpr h1, h2⟩
      · exact (hplayer pv rfl).2

/-- A concrete terrain enumeration for the populate witness. -/
def terrW : List (Coord × TerrainTile) :=
  [(⟨0, 0⟩, TerrainTile.player), (⟨1, 0⟩, TerrainTile.npc NpcType.orc),
   (⟨0, 1⟩, TerrainTile.wall), (⟨1, 1⟩, TerrainTile.floor)]

def wPop : World :=
  match (World.new ⟨2, 2⟩).populate terrW with
  | some p => p.1
  | none => World.new ⟨2, 2⟩

def pPop : Populate :=
  match (World.new ⟨2, 2⟩).populate terrW with
  | some p => p.2
  | none => ⟨⟨0, 0⟩, []⟩

theorem wPop_eq : (World.new ⟨2, 2⟩).populate terrW = some (wPop, pPop) := rfl

theorem populate_spawns_layers_witness :
    (World.new ⟨2, 2⟩).populate terrW = some (wPop, pPop) ∧
    lookupA pPop.player_entity wPop.components.tile = some Tile.player :=
  ⟨wPop_eq, (populate_spawns_layers ⟨2, 2⟩ terrW wPop pPop wPop_eq).2⟩

/-- Modelled from the spec: the tri-state per-cell visibility
(visibility `CellVisibility`, consumed by app.rs). -/
inductive CellVisibility
  | never
  | previously
  | currently
deriving DecidableEq, Repr

/-- game.rs `EntityToRender` (tile and location), extended with the visibility
state; the visibility field is modelled from the spec, since the
visibility-aware `GameState` stage consumed by app.rs is not under src/. -/
structure EntityToRender where
  tile : Tile
  location : Location
  visibility : CellVisibility
deriving DecidableEq, Repr

/-- Modelled from the spec: the state read by the renderable snapshot — the
tile component table, the spatial table, and the per-cell visibility grid of
the visibility-aware `GameState` (missing from src/; app.rs is its caller). -/
structure RenderState where
  components : Components
  spatial_table : SpatialTable
  visibility_grid : List (Coord × CellVisibility)
deriving DecidableEq, Repr

/-- A cell's visibility state (cells never recorded are `never`). -/
def RenderState.visibilityAt (g : RenderState) (c : Coord) : CellVisibility :=
  (lookupA c g.visibility_grid).getD CellVisibility.never

/-- game.rs `GameState::entities_to_render`: iterate the tile component table
and keep each entity that also has a placement; the visibility lookup is
modelled from the spec (section 6, renderable snapshot). -/
def RenderState.entities_to_render (g : RenderState) : List EntityToRender :=
  g.components.tile.filterMap (fun p =>
    (lookupA p.1 g.spatial_table.locs).map
      (fun loc => ⟨p.2, loc, g.visibilityAt loc.coord⟩))

/-- C8: the renderable snapshot is a finite list of (Tile, Location,
VisibilityState) triples with exactly one element per entity having both a
Tile component and a placement: its length is the number of such entities,
every such entity contributes its triple, and every element arises from such
an entity; entities lacking a tile or a placement contribute nothing. -/
theorem entities_to_render_spec (g : RenderState)
    (hnd : (g.components.tile.map Prod.fst).Nodup) :
    g.entities_to_render.length =
      (g.components.tile.filter
        (fun p => (lookupA p.1 g.spatial_table.locs).isSome)).length ∧
    (∀ (e : Entity) (t : Tile) (loc : Location),
      lookupA e g.components.tile = some t →
      lookupA e g.spatial_table.locs = some loc →
      EntityToRender.mk t loc (g.visibilityAt loc.coord) ∈ g.entities_to_render) ∧
    (∀ r ∈ g.entities_to_render,
      ∃ e : Entity, lookupA e g.components.tile = some r.tile ∧
        lookupA e g.spatial_table.locs = some r.location ∧
        r.visibility = g.visibilityAt r.location.coord) := by
  refine ⟨?_, ?_, ?_⟩
  · show (g.components.tile.filterMap _).length = _
    generalize g.components.tile = l
    induction l with
    | nil => rfl
    | cons p rest ih =>
      cases hl : lookupA p.1 g.spatial_table.locs with
      | none => simp [List.filterMap_cons, List.filter_cons, hl, ih]
      | some loc => simp [List.filterMap_cons, List.filter_cons, hl, ih]
  · intro e t loc ht hloc
    unfold RenderState.entities_to_render
    refine List.mem_filterMap.mpr ⟨(e, t), lookupA_mem ht, ?_⟩
    rw [hloc]
    rfl
  · intro r hr
    obtain ⟨p, hp, hf⟩ := List.mem_filterMap.mp hr
    obtain ⟨e0, t0⟩ := p
    cases hl : lookupA e0 g.spatial_table.locs with
    | none => rw [hl] at hf; cases hf
    | some loc =>
      rw [hl] at hf
      dsimp at hf
      cases hf
      exact ⟨e0, lookupA_of_mem_nodup hp hnd, hl, rfl⟩

/-- A concrete render state over the `wC5` world for the witness. -/
def gR : RenderState :=
  ⟨wC5.components, wC5.spatial_table, [(⟨0, 0⟩, CellVisibility.currently)]⟩

theorem entities_to_render_spec_witness :
    (gR.components.tile.map Prod.fst).Nodup ∧
    gR.entities_to_render.length =
      (gR.components.tile.filter
        (fun p => (lookupA p.1 gR.spatial_table.locs).isSome)).length :=
  ⟨by decide, (entities_to_render_spec gR (by decide)).1⟩

/-- C1: in every world satisfying the spatial invariant, at most one entity
occupies any (layer, coordinate) pair — a slot holds at most one entity and an
entity holds at most one slot — and the coordinate-to-entity index agrees with
the entity-to-location index; every world operation (maybe_move_character,
character_bump_attack, character_die, populate, remove_entity) preserves the
invariant. -/
theorem spatial_invariant_preserved (w : World) (hInv : w.Inv) :
    (∀ (c1 c2 : Coord) (l1 l2 : Layer) (e : Entity),
        lookupA (c1, l1) w.spatial_table.cells = some e →
        lookupA (c2, l2) w.spatial_table.cells = some e → c1 = c2 ∧ l1 = l2) ∧
    (∀ (c : Coord) (l : Layer) (e : Entity),
        lookupA (c, l) w.spatial_table.cells = some e ↔
          lookupA e w.spatial_table.locs = some ⟨c, some l⟩) ∧
    (∀ (ch : Entity) (d : CardinalDirection) (w' : World),
        w.maybe_move_character ch d = some w' → w'.Inv) ∧
    (∀ (v : Entity) (w' : World),
        w.character_bump_attack v = some w' → w'.Inv) ∧
    (∀ (e : Entity) (w' : World), w.character_die e = some w' → w'.Inv) ∧
    (∀ (terrain : List (Coord × TerrainTile)) (w' : World) (p : Populate),
        w.populate terrain = some (w', p) → w'.Inv) ∧
    (∀ e : Entity, (w.remove_entity e).Inv) := by
  refine ⟨?_, hInv, ?_, ?_, ?_, ?_, ?_⟩
  · intro c1 c2 l1 l2 e h1 h2
    have e1 := (hInv c1 l1 e).mp h1
    have e2 := (hInv c2 l2 e).mp h2
    rw [e1] at e2
    cases e2
    exact ⟨rfl, rfl⟩
  · intro ch d w' h
    exact inv_maybe_move_character hInv h
  · intro v w' h
    exact inv_character_bump_attack hInv h
  · intro e w' h
    exact inv_character_die hInv h
  · intro terrain w' p h
    exact inv_populate hInv h
  · intro e
    exact inv_remove_entity hInv e

theorem spatial_invariant_preserved_witness :
    (World.new ⟨2, 2⟩).Inv ∧ ((World.new ⟨2, 2⟩).remove_entity ⟨0, 0⟩).Inv :=
  ⟨inv_new _,
   (spatial_invariant_preserved (World.new ⟨2, 2⟩) (inv_new _)).2.2.2.2.2.2 ⟨0, 0⟩⟩

/-- C6: a bump attack on an entity without a HitPoints component is skipped as
not applicable — it returns without error and leaves the whole world
unchanged. -/
theorem bump_attack_skipped_without_hit_points (w : World) (v : Entity)
    (h : lookupA v w.components.hit_points = none) :
    w.character_bump_attack v = some w := by
  unfold World.character_bump_attack
  rw [h]

theorem bump_attack_skipped_without_hit_points_witness :
    lookupA (⟨0, 0⟩ : Entity) (World.new ⟨1, 1⟩).components.hit_points = none ∧
    (World.new ⟨1, 1⟩).character_bump_attack ⟨0, 0⟩ = some (World.new ⟨1, 1⟩) :=
  ⟨rfl, bump_attack_skipped_without_hit_points (World.new ⟨1, 1⟩) ⟨0, 0⟩ rfl⟩

/-- C9: the opacity function returns 255 exactly when the Feature layer at the
coordinate is occupied (and the coordinate is in range) and 0 otherwise;
out-of-range coordinates count as having no occupants, hence transparent. -/
theorem opacity_at_feature (w : World) (c : Coord) :
    (w.opacity_at c = 255 ↔
      c.isValid w.spatial_table.gridSize = true ∧
        (lookupA (c, Layer.feature) w.spatial_table.cells).isSome = true) ∧
    (w.opacity_at c = 0 ↔
      ¬(c.isValid w.spatial_table.gridSize = true ∧
          (lookupA (c, Layer.feature) w.spatial_table.cells).isSome = true)) := by
  unfold World.opacity_at SpatialTable.layers_at_checked SpatialTable.layers_at
    SpatialTable.layersOf
  by_cases hv : c.isValid w.spatial_table.gridSize = true
  · rw [if_pos hv]
    cases hf : lookupA (c, Layer.feature) w.spatial_table.cells with
    | none => simp [hf, hv]
    | some f => simp [hf, hv]
  · rw [if_neg hv]
    simp [Layers.empty, hv]

end Rustoguelike
